import Mathlib

/-!
Verification development for the joyent/rust-triton-clients SAPI client
(src/sapi/src/lib.rs).

The client consists of serde-derived record types (ZoneConfig, SapiManifests,
ServiceData, InstanceData, ApplicationData) and a SAPI struct whose read
operations perform one HTTP GET and decode the JSON body, and whose mutating
operations (create_service, update_service, delete_service) return the raw
response.

JSON values are modelled by an inductive `Json` type.  A JSON object payload
is its field list in payload order.  The serde-derive deserializer for a
struct is modelled faithfully as a left-to-right pass over the field list:
each known field is decoded into its slot (erroring on a duplicate known
field or a value of the wrong type), unknown fields are skipped, and at the
end missing required fields are an error while fields carrying
serde(default) (and Option fields) take their default.  Struct
deserialization from a JSON array (the serde_json sequence form) is not
modelled; every claim concerns object payloads.

The HTTP layer is modelled by a transport oracle `Transport` mapping a
request to either a transport error or a response (status and already-parsed
JSON body).  Each client operation returns its result together with the list
of requests it issued, so that the single-round-trip behaviour is visible in
the model.
-/

/-- Model of serde_json::Value / a parsed JSON document. -/
inductive Json where
  | null : Json
  | bool (b : Bool) : Json
  | num (n : Int) : Json
  | str (s : String) : Json
  | arr (elems : List Json) : Json
  | obj (fields : List (String × Json)) : Json
deriving Repr

/-- First value bound to key `k` in an object field list (payload order). -/
def findField (fs : List (String × Json)) (k : String) : Option Json :=
  match fs with
  | [] => none
  | (k2, v) :: rest => if k2 = k then some v else findField rest k

/-- serde deserialization of a `String` field value. -/
def decStr : Json → Except String String
  | .str s => .ok s
  | _ => .error "invalid type: expected a string"

/-- serde deserialization of a `bool` field value. -/
def decBool : Json → Except String Bool
  | .bool b => .ok b
  | _ => .error "invalid type: expected a boolean"

/-- serde deserialization of an `Option<Value>` field value:
JSON null becomes None, anything else Some of the value itself. -/
def decOptValue : Json → Option Json
  | .null => none
  | v => some v

/-- `src/sapi/src/lib.rs` SapiManifests: uuid is required, every other
field carries serde(default). -/
structure SapiManifests where
  uuid : String
  name : String
  path : String
  template : String
  version : String
  master : Bool
  post_cmd : String
deriving Repr, DecidableEq

/-- serde-derive deserializer body for SapiManifests: one pass over the
object fields with one slot per known field; duplicate known fields and
wrongly-typed values error, unknown fields are skipped; at the end uuid is
required and the defaulted fields fall back to empty string / false. -/
def SapiManifests.fromFields :
    List (String × Json) → Option String → Option String → Option String →
    Option String → Option String → Option Bool → Option String →
    Except String SapiManifests
  | [], aU, aN, aP, aT, aV, aM, aPC =>
    match aU with
    | none => .error "missing field uuid"
    | some u =>
      .ok ⟨u, aN.getD "", aP.getD "", aT.getD "", aV.getD "",
           aM.getD false, aPC.getD ""⟩
  | (k, v) :: rest, aU, aN, aP, aT, aV, aM, aPC =>
    if k = "uuid" then
      match aU with
      | some _ => .error "duplicate field uuid"
      | none =>
        match decStr v with
        | .error e => .error e
        | .ok s => SapiManifests.fromFields rest (some s) aN aP aT aV aM aPC
    else if k = "name" then
      match aN with
      | some _ => .error "duplicate field name"
      | none =>
        match decStr v with
        | .error e => .error e
        | .ok s => SapiManifests.fromFields rest aU (some s) aP aT aV aM aPC
    else if k = "path" then
      match aP with
      | some _ => .error "duplicate field path"
      | none =>
        match decStr v with
        | .error e => .error e
        | .ok s => SapiManifests.fromFields rest aU aN (some s) aT aV aM aPC
    else if k = "template" then
      match aT with
      | some _ => .error "duplicate field template"
      | none =>
        match decStr v with
        | .error e => .error e
        | .ok s => SapiManifests.fromFields rest aU aN aP (some s) aV aM aPC
    else if k = "version" then
      match aV with
      | some _ => .error "duplicate field version"
      | none =>
        match decStr v with
        | .error e => .error e
        | .ok s => SapiManifests.fromFields rest aU aN aP aT (some s) aM aPC
    else if k = "master" then
      match aM with
      | some _ => .error "duplicate field master"
      | none =>
        match decBool v with
        | .error e => .error e
        | .ok b => SapiManifests.fromFields rest aU aN aP aT aV (some b) aPC
    else if k = "post_cmd" then
      match aPC with
      | some _ => .error "duplicate field post_cmd"
      | none =>
        match decStr v with
        | .error e => .error e
        | .ok s => SapiManifests.fromFields rest aU aN aP aT aV aM (some s)
    else
      SapiManifests.fromFields rest aU aN aP aT aV aM aPC

/-- Deserialize a JSON value as a SapiManifests record. -/
def SapiManifests.fromJson : Json → Except String SapiManifests
  | .obj fs => SapiManifests.fromFields fs none none none none none none none
  | _ => .error "invalid type: expected struct SapiManifests"

/-- serde-derive serializer for SapiManifests: every field is always
emitted, in declaration order. -/
def SapiManifests.toJson (m : SapiManifests) : Json :=
  .obj [("uuid", .str m.uuid), ("name", .str m.name), ("path", .str m.path),
        ("template", .str m.template), ("version", .str m.version),
        ("master", .bool m.master), ("post_cmd", .str m.post_cmd)]

/-- Deserialize a list of JSON values elementwise (Vec semantics). -/
def decodeJsonList (dec : Json → Except String α) :
    List Json → Except String (List α)
  | [] => .ok []
  | j :: rest =>
    match dec j with
    | .error e => .error e
    | .ok x =>
      match decodeJsonList dec rest with
      | .error e => .error e
      | .ok xs => .ok (x :: xs)

/-- serde deserialization of a `Vec<T>` field value. -/
def decArray (dec : Json → Except String α) : Json → Except String (List α)
  | .arr xs => decodeJsonList dec xs
  | _ => .error "invalid type: expected a sequence"

/-- `src/sapi/src/lib.rs` ZoneConfig: both fields are required
(no serde(default), and Value is not an Option). -/
structure ZoneConfig where
  manifests : List SapiManifests
  metadata : Json
deriving Repr

/-- serde-derive deserializer body for ZoneConfig. -/
def ZoneConfig.fromFields :
    List (String × Json) → Option (List SapiManifests) → Option Json →
    Except String ZoneConfig
  | [], aMan, aMeta =>
    match aMan with
    | none => .error "missing field manifests"
    | some ms =>
      match aMeta with
      | none => .error "missing field metadata"
      | some md => .ok ⟨ms, md⟩
  | (k, v) :: rest, aMan, aMeta =>
    if k = "manifests" then
      match aMan with
      | some _ => .error "duplicate field manifests"
      | none =>
        match decArray SapiManifests.fromJson v with
        | .error e => .error e
        | .ok ms => ZoneConfig.fromFields rest (some ms) aMeta
    else if k = "metadata" then
      match aMeta with
      | some _ => .error "duplicate field metadata"
      | none => ZoneConfig.fromFields rest aMan (some v)
    else
      ZoneConfig.fromFields rest aMan aMeta

/-- Deserialize a JSON value as a ZoneConfig record. -/
def ZoneConfig.fromJson : Json → Except String ZoneConfig
  | .obj fs => ZoneConfig.fromFields fs none none
  | _ => .error "invalid type: expected struct ZoneConfig"

/-- serde-derive serializer for ZoneConfig. -/
def ZoneConfig.toJson (z : ZoneConfig) : Json :=
  .obj [("manifests", .arr (z.manifests.map SapiManifests.toJson)),
        ("metadata", z.metadata)]

/-- `src/sapi/src/lib.rs` ServiceData: uuid, name, application_uuid are
required; params and metadata are Option (missing or null gives None);
master carries serde(default). -/
structure ServiceData where
  uuid : String
  name : String
  application_uuid : String
  params : Option Json
  metadata : Option Json
  master : Bool
deriving Repr

/-- serde-derive deserializer body for ServiceData. -/
def ServiceData.fromFields :
    List (String × Json) → Option String → Option String → Option String →
    Option (Option Json) → Option (Option Json) → Option Bool →
    Except String ServiceData
  | [], aU, aN, aA, aP, aMd, aM =>
    match aU with
    | none => .error "missing field uuid"
    | some u =>
      match aN with
      | none => .error "missing field name"
      | some n =>
        match aA with
        | none => .error "missing field application_uuid"
        | some a =>
          .ok ⟨u, n, a, aP.getD none, aMd.getD none, aM.getD false⟩
  | (k, v) :: rest, aU, aN, aA, aP, aMd, aM =>
    if k = "uuid" then
      match aU with
      | some _ => .error "duplicate field uuid"
      | none =>
        match decStr v with
        | .error e => .error e
        | .ok s => ServiceData.fromFields rest (some s) aN aA aP aMd aM
    else if k = "name" then
      match aN with
      | some _ => .error "duplicate field name"
      | none =>
        match decStr v with
        | .error e => .error e
        | .ok s => ServiceData.fromFields rest aU (some s) aA aP aMd aM
    else if k = "application_uuid" then
      match aA with
      | some _ => .error "duplicate field application_uuid"
      | none =>
        match decStr v with
        | .error e => .error e
        | .ok s => ServiceData.fromFields rest aU aN (some s) aP aMd aM
    else if k = "params" then
      match aP with
      | some _ => .error "duplicate field params"
      | none => ServiceData.fromFields rest aU aN aA (some (decOptValue v)) aMd aM
    else if k = "metadata" then
      match aMd with
      | some _ => .error "duplicate field metadata"
      | none => ServiceData.fromFields rest aU aN aA aP (some (decOptValue v)) aM
    else if k = "master" then
      match aM with
      | some _ => .error "duplicate field master"
      | none =>
        match decBool v with
        | .error e => .error e
        | .ok b => ServiceData.fromFields rest aU aN aA aP aMd (some b)
    else
      ServiceData.fromFields rest aU aN aA aP aMd aM

/-- Deserialize a JSON value as a ServiceData record. -/
def ServiceData.fromJson : Json → Except String ServiceData
  | .obj fs => ServiceData.fromFields fs none none none none none none
  | _ => .error "invalid type: expected struct ServiceData"

/-- `src/sapi/src/lib.rs` InstanceData: uuid and service_uuid required;
params and metadata are Option. -/
structure InstanceData where
  uuid : String
  service_uuid : String
  params : Option Json
  metadata : Option Json
deriving Repr

/-- serde-derive deserializer body for InstanceData. -/
def InstanceData.fromFields :
    List (String × Json) → Option String → Option String →
    Option (Option Json) → Option (Option Json) →
    Except String InstanceData
  | [], aU, aS, aP, aMd =>
    match aU with
    | none => .error "missing field uuid"
    | some u =>
      match aS with
      | none => .error "missing field service_uuid"
      | some s => .ok ⟨u, s, aP.getD none, aMd.getD none⟩
  | (k, v) :: rest, aU, aS, aP, aMd =>
    if k = "uuid" then
      match aU with
      | some _ => .error "duplicate field uuid"
      | none =>
        match decStr v with
        | .error e => .error e
        | .ok s => InstanceData.fromFields rest (some s) aS aP aMd
    else if k = "service_uuid" then
      match aS with
      | some _ => .error "duplicate field service_uuid"
      | none =>
        match decStr v with
        | .error e => .error e
        | .ok s => InstanceData.fromFields rest aU (some s) aP aMd
    else if k = "params" then
      match aP with
      | some _ => .error "duplicate field params"
      | none => InstanceData.fromFields rest aU aS (some (decOptValue v)) aMd
    else if k = "metadata" then
      match aMd with
      | some _ => .error "duplicate field metadata"
      | none => InstanceData.fromFields rest aU aS aP (some (decOptValue v))
    else
      InstanceData.fromFields rest aU aS aP aMd

/-- Deserialize a JSON value as an InstanceData record. -/
def InstanceData.fromJson : Json → Except String InstanceData
  | .obj fs => InstanceData.fromFields fs none none none none
  | _ => .error "invalid type: expected struct InstanceData"

/-- `src/sapi/src/lib.rs` ApplicationData: uuid, name, owner_uuid required;
params, metadata, manifests are Option. -/
structure ApplicationData where
  uuid : String
  name : String
  owner_uuid : String
  params : Option Json
  metadata : Option Json
  manifests : Option Json
deriving Repr

/-- serde-derive deserializer body for ApplicationData. -/
def ApplicationData.fromFields :
    List (String × Json) → Option String → Option String → Option String →
    Option (Option Json) → Option (Option Json) → Option (Option Json) →
    Except String ApplicationData
  | [], aU, aN, aO, aP, aMd, aMan =>
    match aU with
    | none => .error "missing field uuid"
    | some u =>
      match aN with
      | none => .error "missing field name"
      | some n =>
        match aO with
        | none => .error "missing field owner_uuid"
        | some o =>
          .ok ⟨u, n, o, aP.getD none, aMd.getD none, aMan.getD none⟩
  | (k, v) :: rest, aU, aN, aO, aP, aMd, aMan =>
    if k = "uuid" then
      match aU with
      | some _ => .error "duplicate field uuid"
      | none =>
        match decStr v with
        | .error e => .error e
        | .ok s => ApplicationData.fromFields rest (some s) aN aO aP aMd aMan
    else if k = "name" then
      match aN with
      | some _ => .error "duplicate field name"
      | none =>
        match decStr v with
        | .error e => .error e
        | .ok s => ApplicationData.fromFields rest aU (some s) aO aP aMd aMan
    else if k = "owner_uuid" then
      match aO with
      | some _ => .error "duplicate field owner_uuid"
      | none =>
        match decStr v with
        | .error e => .error e
        | .ok s => ApplicationData.fromFields rest aU aN (some s) aP aMd aMan
    else if k = "params" then
      match aP with
      | some _ => .error "duplicate field params"
      | none => ApplicationData.fromFields rest aU aN aO (some (decOptValue v)) aMd aMan
    else if k = "metadata" then
      match aMd with
      | some _ => .error "duplicate field metadata"
      | none => ApplicationData.fromFields rest aU aN aO aP (some (decOptValue v)) aMan
    else if k = "manifests" then
      match aMan with
      | some _ => .error "duplicate field manifests"
      | none => ApplicationData.fromFields rest aU aN aO aP aMd (some (decOptValue v))
    else
      ApplicationData.fromFields rest aU aN aO aP aMd aMan

/-- Deserialize a JSON value as an ApplicationData record. -/
def ApplicationData.fromJson : Json → Except String ApplicationData
  | .obj fs => ApplicationData.fromFields fs none none none none none none
  | _ => .error "invalid type: expected struct ApplicationData"

/-- Type alias from the source: Applications = Vec of ApplicationData. -/
def decApplications : Json → Except String (List ApplicationData) :=
  decArray ApplicationData.fromJson

/-- Type alias from the source: Services = Vec of ServiceData. -/
def decServices : Json → Except String (List ServiceData) :=
  decArray ServiceData.fromJson

/-- Type alias from the source: Instances = Vec of InstanceData. -/
def decInstances : Json → Except String (List InstanceData) :=
  decArray InstanceData.fromJson

/-! ### HTTP layer model -/

/-- HTTP method used by the client. -/
inductive Method where
  | GET
  | POST
  | DELETE
deriving Repr, DecidableEq

/-- One HTTP request as the client builds it: the method, the URL string
handed to the transport, and the JSON body for POST. -/
structure Request where
  method : Method
  url : String
  body : Option Json
deriving Repr

/-- A transport-level response: status code and body (as parsed JSON,
which is what Response::json consumes). -/
structure HttpResponse where
  status : Nat
  body : Json
deriving Repr

/-- The transport oracle: either the round trip fails (reqwest error from
send) or a response comes back. -/
def Transport : Type := Request → Except String HttpResponse

/-- Error taxonomy of a read operation, mirroring the dynamic type inside
the boxed error: a transport failure from send, or a serde decode failure
from Response::json.  There is no not-found / server-error kind. -/
inductive SapiError where
  | transport (e : String)
  | decode (e : String)
deriving Repr, DecidableEq

/-- The SAPI client state used in URL construction. -/
structure SAPI where
  sapi_base_url : String
deriving Repr

/-- Private generic get: issues one GET request to the URL and returns the
transport outcome together with the request log. -/
def SAPI.get (_c : SAPI) (url : String) (t : Transport) :
    Except String HttpResponse × List Request :=
  (t ⟨.GET, url, none⟩, [⟨.GET, url, none⟩])

/-- Private generic post: issues one POST request carrying a JSON body. -/
def SAPI.post (_c : SAPI) (url : String) (body : Json) (t : Transport) :
    Except String HttpResponse × List Request :=
  (t ⟨.POST, url, some body⟩, [⟨.POST, url, some body⟩])

/-- Private generic delete: issues one DELETE request. -/
def SAPI.delete (_c : SAPI) (url : String) (t : Transport) :
    Except String HttpResponse × List Request :=
  (t ⟨.DELETE, url, none⟩, [⟨.DELETE, url, none⟩])

/-- The read-path continuation self.get(url)?.json()?: the ? on get
propagates the transport error; on a successful round trip the body is
decoded with no inspection of the HTTP status. -/
def respJson (r : Except String HttpResponse)
    (dec : Json → Except String α) : Except SapiError α :=
  match r with
  | .error e => .error (.transport e)
  | .ok resp =>
    match dec resp.body with
    | .error e => .error (.decode e)
    | .ok v => .ok v

/-- get_zone_config: GET base/configs/uuid, decode as ZoneConfig. -/
def SAPI.get_zone_config (c : SAPI) (uuid : String) (t : Transport) :
    Except SapiError ZoneConfig × List Request :=
  let url := c.sapi_base_url ++ "/configs/" ++ uuid
  let r := SAPI.get c url t
  (respJson r.1 ZoneConfig.fromJson, r.2)

/-- get_instance: GET base/instances/uuid, decode as InstanceData. -/
def SAPI.get_instance (c : SAPI) (inst_uuid : String) (t : Transport) :
    Except SapiError InstanceData × List Request :=
  let url := c.sapi_base_url ++ "/instances/" ++ inst_uuid
  let r := SAPI.get c url t
  (respJson r.1 InstanceData.fromJson, r.2)

/-- list_instances: GET base/instances, decode as Instances. -/
def SAPI.list_instances (c : SAPI) (t : Transport) :
    Except SapiError (List InstanceData) × List Request :=
  let url := c.sapi_base_url ++ "/instances"
  let r := SAPI.get c url t
  (respJson r.1 decInstances, r.2)

/-- list_service_instances: GET base/instances?service_uuid=svc_uuid. -/
def SAPI.list_service_instances (c : SAPI) (svc_uuid : String) (t : Transport) :
    Except SapiError (List InstanceData) × List Request :=
  let url := c.sapi_base_url ++ "/instances?service_uuid=" ++ svc_uuid
  let r := SAPI.get c url t
  (respJson r.1 decInstances, r.2)

/-- list_services: GET base/services, decode as Services. -/
def SAPI.list_services (c : SAPI) (t : Transport) :
    Except SapiError (List ServiceData) × List Request :=
  let url := c.sapi_base_url ++ "/services"
  let r := SAPI.get c url t
  (respJson r.1 decServices, r.2)

/-- get_service: GET base/services/uuid, decode as ServiceData. -/
def SAPI.get_service (c : SAPI) (uuid : String) (t : Transport) :
    Except SapiError ServiceData × List Request :=
  let url := c.sapi_base_url ++ "/services/" ++ uuid
  let r := SAPI.get c url t
  (respJson r.1 ServiceData.fromJson, r.2)

/-- get_service_by_name: GET base/services?name=name, decode as Services. -/
def SAPI.get_service_by_name (c : SAPI) (name : String) (t : Transport) :
    Except SapiError (List ServiceData) × List Request :=
  let url := c.sapi_base_url ++ "/services?name=" ++ name
  let r := SAPI.get c url t
  (respJson r.1 decServices, r.2)

/-- create_service: POST base/services with the json! body
containing exactly name and application_uuid; raw response returned. -/
def SAPI.create_service (c : SAPI) (name application_uuid : String)
    (t : Transport) : Except String HttpResponse × List Request :=
  let body := Json.obj [("name", Json.str name),
                        ("application_uuid", Json.str application_uuid)]
  let url := c.sapi_base_url ++ "/services"
  SAPI.post c url body t

/-- update_service: POST base/services/service_uuid with the caller body. -/
def SAPI.update_service (c : SAPI) (service_uuid : String) (body : Json)
    (t : Transport) : Except String HttpResponse × List Request :=
  let url := c.sapi_base_url ++ "/services/" ++ service_uuid
  SAPI.post c url body t

/-- delete_service: DELETE base/services/service_uuid. -/
def SAPI.delete_service (c : SAPI) (service_uuid : String) (t : Transport) :
    Except String HttpResponse × List Request :=
  let url := c.sapi_base_url ++ "/services/" ++ service_uuid
  SAPI.delete c url t

/-- get_application_by_name: GET base/applications?name=name. -/
def SAPI.get_application_by_name (c : SAPI) (name : String) (t : Transport) :
    Except SapiError (List ApplicationData) × List Request :=
  let url := c.sapi_base_url ++ "/applications?name=" ++ name
  let r := SAPI.get c url t
  (respJson r.1 decApplications, r.2)

/-- list_applications: GET base/applications. -/
def SAPI.list_applications (c : SAPI) (t : Transport) :
    Except SapiError (List ApplicationData) × List Request :=
  let url := c.sapi_base_url ++ "/applications"
  let r := SAPI.get c url t
  (respJson r.1 decApplications, r.2)

/-- get_application: GET base/applications/uuid. -/
def SAPI.get_application (c : SAPI) (uuid : String) (t : Transport) :
    Except SapiError ApplicationData × List Request :=
  let url := c.sapi_base_url ++ "/applications/" ++ uuid
  let r := SAPI.get c url t
  (respJson r.1 ApplicationData.fromJson, r.2)

/-! ### Decoder lemmas -/

theorem findField_cons_self (a : String) (v : Json) (r : List (String × Json)) :
    findField ((a, v) :: r) a = some v := by
  simp [findField]

theorem findField_cons_ne (a k : String) (h : a ≠ k) (v : Json)
    (r : List (String × Json)) :
    findField ((a, v) :: r) k = findField r k := by
  simp [findField, h]

theorem findField_not_mem : ∀ (fs : List (String × Json)) (k : String),
    k ∉ fs.map Prod.fst → findField fs k = none
  | [], _, _ => rfl
  | (a, v) :: r, k, h => by
    rw [List.map_cons, List.mem_cons] at h
    push_neg at h
    rw [findField_cons_ne a k (Ne.symm h.1) v r, findField_not_mem r k h.2]

/-- The string a serde(default) String field ends up holding, given the slot
contents and the remaining payload. -/
def resolveStr (fs : List (String × Json)) (k : String) (o : Option String) :
    String :=
  match o with
  | some s => s
  | none =>
    match findField fs k with
    | some (.str s) => s
    | _ => ""

/-- The value a serde(default) bool field ends up holding. -/
def resolveBool (fs : List (String × Json)) (k : String) (o : Option Bool) :
    Bool :=
  match o with
  | some b => b
  | none =>
    match findField fs k with
    | some (.bool b) => b
    | _ => false

/-- The string a required String field ends up holding, if any. -/
def resolveReqStr (fs : List (String × Json)) (k : String)
    (o : Option String) : Option String :=
  match o with
  | some s => some s
  | none =>
    match findField fs k with
    | some (.str s) => some s
    | _ => none

/-- The value an Option field ends up holding. -/
def resolveOptValue (fs : List (String × Json)) (k : String)
    (o : Option (Option Json)) : Option Json :=
  match o with
  | some w => w
  | none =>
    match findField fs k with
    | some v => decOptValue v
    | none => none

theorem resolveStr_nil (k : String) (o : Option String) :
    resolveStr [] k o = o.getD "" := by
  cases o <;> rfl

theorem resolveBool_nil (k : String) (o : Option Bool) :
    resolveBool [] k o = o.getD false := by
  cases o <;> rfl

theorem resolveOptValue_nil (k : String) (o : Option (Option Json)) :
    resolveOptValue [] k o = o.getD none := by
  cases o <;> rfl

theorem resolveStr_cons_ne (a k : String) (h : a ≠ k) (v : Json)
    (r : List (String × Json)) (o : Option String) :
    resolveStr ((a, v) :: r) k o = resolveStr r k o := by
  cases o <;> simp [resolveStr, findField_cons_ne a k h]

theorem resolveBool_cons_ne (a k : String) (h : a ≠ k) (v : Json)
    (r : List (String × Json)) (o : Option Bool) :
    resolveBool ((a, v) :: r) k o = resolveBool r k o := by
  cases o <;> simp [resolveBool, findField_cons_ne a k h]

theorem resolveReqStr_cons_ne (a k : String) (h : a ≠ k) (v : Json)
    (r : List (String × Json)) (o : Option String) :
    resolveReqStr ((a, v) :: r) k o = resolveReqStr r k o := by
  cases o <;> simp [resolveReqStr, findField_cons_ne a k h]

theorem resolveOptValue_cons_ne (a k : String) (h : a ≠ k) (v : Json)
    (r : List (String × Json)) (o : Option (Option Json)) :
    resolveOptValue ((a, v) :: r) k o = resolveOptValue r k o := by
  cases o <;> simp [resolveOptValue, findField_cons_ne a k h]

theorem resolveStr_head (k s : String) (r : List (String × Json)) :
    resolveStr ((k, Json.str s) :: r) k none = s := by
  simp [resolveStr, findField_cons_self]

theorem resolveBool_head (k : String) (b : Bool) (r : List (String × Json)) :
    resolveBool ((k, Json.bool b) :: r) k none = b := by
  simp [resolveBool, findField_cons_self]

theorem resolveOptValue_head (k : String) (v : Json)
    (r : List (String × Json)) :
    resolveOptValue ((k, v) :: r) k none = decOptValue v := by
  simp [resolveOptValue, findField_cons_self]

/-- The value bound to key k, when present, is a JSON string. -/
def WTstr (fs : List (String × Json)) (k : String) : Prop :=
  ∀ v, findField fs k = some v → ∃ s, v = Json.str s

/-- The value bound to key k, when present, is a JSON boolean. -/
def WTbool (fs : List (String × Json)) (k : String) : Prop :=
  ∀ v, findField fs k = some v → ∃ b, v = Json.bool b

theorem WTstr_cons_ne (a k : String) (h : a ≠ k) (v : Json)
    (r : List (String × Json)) : WTstr ((a, v) :: r) k ↔ WTstr r k := by
  unfold WTstr
  rw [findField_cons_ne a k h]

theorem WTbool_cons_ne (a k : String) (h : a ≠ k) (v : Json)
    (r : List (String × Json)) : WTbool ((a, v) :: r) k ↔ WTbool r k := by
  unfold WTbool
  rw [findField_cons_ne a k h]

theorem WTstr_of_none (fs : List (String × Json)) (k : String)
    (h : findField fs k = none) : WTstr fs k := by
  intro v hv
  rw [h] at hv
  cases hv

theorem WTbool_of_none (fs : List (String × Json)) (k : String)
    (h : findField fs k = none) : WTbool fs k := by
  intro v hv
  rw [h] at hv
  cases hv

/-- Success characterization of the SapiManifests deserializer pass on a
payload without duplicate keys: if uuid resolves to a string and every
present defaultable field is well typed, decoding succeeds and each field
holds its payload value, its slot value, or its default. -/
theorem sapiManifests_fromFields_ok :
    ∀ (fs : List (String × Json)) (aU aN aP aT aV : Option String)
      (aM : Option Bool) (aPC : Option String) (u : String),
    (fs.map Prod.fst).Nodup →
    (aU.isSome = true → findField fs "uuid" = none) →
    (aN.isSome = true → findField fs "name" = none) →
    (aP.isSome = true → findField fs "path" = none) →
    (aT.isSome = true → findField fs "template" = none) →
    (aV.isSome = true → findField fs "version" = none) →
    (aM.isSome = true → findField fs "master" = none) →
    (aPC.isSome = true → findField fs "post_cmd" = none) →
    WTstr fs "name" → WTstr fs "path" → WTstr fs "template" →
    WTstr fs "version" → WTbool fs "master" → WTstr fs "post_cmd" →
    resolveReqStr fs "uuid" aU = some u →
    SapiManifests.fromFields fs aU aN aP aT aV aM aPC =
      .ok ⟨u, resolveStr fs "name" aN, resolveStr fs "path" aP,
           resolveStr fs "template" aT, resolveStr fs "version" aV,
           resolveBool fs "master" aM, resolveStr fs "post_cmd" aPC⟩ := by
  intro fs
  induction fs with
  | nil =>
    intro aU aN aP aT aV aM aPC u _ _ _ _ _ _ _ _ _ _ _ _ _ _ hres
    cases aU with
    | none => exact Option.noConfusion hres
    | some s =>
      have hsu : s = u := Option.some.inj hres
      subst hsu
      simp only [resolveStr_nil, resolveBool_nil]
      rfl
  | cons hd rest ih =>
    obtain ⟨k, v⟩ := hd
    intro aU aN aP aT aV aM aPC u hnd hU hN hP hT hV hM hPC wN wP wT wV wM wPC hres
    rw [List.map_cons, List.nodup_cons] at hnd
    by_cases hk1 : k = "uuid"
    · subst hk1
      cases aU with
      | some s0 =>
        have h0 : (some v : Option Json) = none := by
          rw [← findField_cons_self "uuid" v rest]
          exact hU rfl
        exact Option.noConfusion h0
      | none =>
        cases v with
        | str s =>
          have hsu : s = u := Option.some.inj hres
          subst hsu
          have hstep :
              SapiManifests.fromFields (("uuid", Json.str s) :: rest)
                none aN aP aT aV aM aPC
              = SapiManifests.fromFields rest (some s) aN aP aT aV aM aPC := rfl
          rw [hstep,
              resolveStr_cons_ne "uuid" "name" (by decide),
              resolveStr_cons_ne "uuid" "path" (by decide),
              resolveStr_cons_ne "uuid" "template" (by decide),
              resolveStr_cons_ne "uuid" "version" (by decide),
              resolveBool_cons_ne "uuid" "master" (by decide),
              resolveStr_cons_ne "uuid" "post_cmd" (by decide)]
          exact ih (some s) aN aP aT aV aM aPC s hnd.2
            (fun _ => findField_not_mem rest "uuid" hnd.1)
            (fun h => (findField_cons_ne "uuid" "name" (by decide) _ _).symm.trans (hN h))
            (fun h => (findField_cons_ne "uuid" "path" (by decide) _ _).symm.trans (hP h))
            (fun h => (findField_cons_ne "uuid" "template" (by decide) _ _).symm.trans (hT h))
            (fun h => (findField_cons_ne "uuid" "version" (by decide) _ _).symm.trans (hV h))
            (fun h => (findField_cons_ne "uuid" "master" (by decide) _ _).symm.trans (hM h))
            (fun h => (findField_cons_ne "uuid" "post_cmd" (by decide) _ _).symm.trans (hPC h))
            ((WTstr_cons_ne "uuid" "name" (by decide) _ _).mp wN)
            ((WTstr_cons_ne "uuid" "path" (by decide) _ _).mp wP)
            ((WTstr_cons_ne "uuid" "template" (by decide) _ _).mp wT)
            ((WTstr_cons_ne "uuid" "version" (by decide) _ _).mp wV)
            ((WTbool_cons_ne "uuid" "master" (by decide) _ _).mp wM)
            ((WTstr_cons_ne "uuid" "post_cmd" (by decide) _ _).mp wPC)
            rfl
        | null => exact Option.noConfusion hres
        | bool b => exact Option.noConfusion hres
        | num n => exact Option.noConfusion hres
        | arr xs => exact Option.noConfusion hres
        | obj fs2 => exact Option.noConfusion hres
    · by_cases hk2 : k = "name"
      · subst hk2
        have hf : findField (("name", v) :: rest) "name" = some v :=
          findField_cons_self "name" v rest
        cases aN with
        | some s0 =>
          have h0 : (some v : Option Json) = none := by
            rw [← hf]
            exact hN rfl
          exact Option.noConfusion h0
        | none =>
          obtain ⟨s, rfl⟩ := wN v hf
          have hstep :
              SapiManifests.fromFields (("name", Json.str s) :: rest)
                aU none aP aT aV aM aPC
              = SapiManifests.fromFields rest aU (some s) aP aT aV aM aPC := rfl
          rw [hstep, resolveStr_head "name" s rest,
              resolveStr_cons_ne "name" "path" (by decide),
              resolveStr_cons_ne "name" "template" (by decide),
              resolveStr_cons_ne "name" "version" (by decide),
              resolveBool_cons_ne "name" "master" (by decide),
              resolveStr_cons_ne "name" "post_cmd" (by decide)]
          exact ih aU (some s) aP aT aV aM aPC u hnd.2
            (fun h => (findField_cons_ne "name" "uuid" (by decide) _ _).symm.trans (hU h))
            (fun _ => findField_not_mem rest "name" hnd.1)
            (fun h => (findField_cons_ne "name" "path" (by decide) _ _).symm.trans (hP h))
            (fun h => (findField_cons_ne "name" "template" (by decide) _ _).symm.trans (hT h))
            (fun h => (findField_cons_ne "name" "version" (by decide) _ _).symm.trans (hV h))
            (fun h => (findField_cons_ne "name" "master" (by decide) _ _).symm.trans (hM h))
            (fun h => (findField_cons_ne "name" "post_cmd" (by decide) _ _).symm.trans (hPC h))
            (WTstr_of_none rest "name" (findField_not_mem rest "name" hnd.1))
            ((WTstr_cons_ne "name" "path" (by decide) _ _).mp wP)
            ((WTstr_cons_ne "name" "template" (by decide) _ _).mp wT)
            ((WTstr_cons_ne "name" "version" (by decide) _ _).mp wV)
            ((WTbool_cons_ne "name" "master" (by decide) _ _).mp wM)
            ((WTstr_cons_ne "name" "post_cmd" (by decide) _ _).mp wPC)
            ((resolveReqStr_cons_ne "name" "uuid" (by decide) _ _ _).symm.trans hres)
      · by_cases hk3 : k = "path"
        · subst hk3
          have hf : findField (("path", v) :: rest) "path" = some v :=
            findField_cons_self "path" v rest
          cases aP with
          | some s0 =>
            have h0 : (some v : Option Json) = none := by
              rw [← hf]
              exact hP rfl
            exact Option.noConfusion h0
          | none =>
            obtain ⟨s, rfl⟩ := wP v hf
            have hstep :
                SapiManifests.fromFields (("path", Json.str s) :: rest)
                  aU aN none aT aV aM aPC
                = SapiManifests.fromFields rest aU aN (some s) aT aV aM aPC := rfl
            rw [hstep, resolveStr_head "path" s rest,
                resolveStr_cons_ne "path" "name" (by decide),
                resolveStr_cons_ne "path" "template" (by decide),
                resolveStr_cons_ne "path" "version" (by decide),
                resolveBool_cons_ne "path" "master" (by decide),
                resolveStr_cons_ne "path" "post_cmd" (by decide)]
            exact ih aU aN (some s) aT aV aM aPC u hnd.2
              (fun h => (findField_cons_ne "path" "uuid" (by decide) _ _).symm.trans (hU h))
              (fun h => (findField_cons_ne "path" "name" (by decide) _ _).symm.trans (hN h))
              (fun _ => findField_not_mem rest "path" hnd.1)
              (fun h => (findField_cons_ne "path" "template" (by decide) _ _).symm.trans (hT h))
              (fun h => (findField_cons_ne "path" "version" (by decide) _ _).symm.trans (hV h))
              (fun h => (findField_cons_ne "path" "master" (by decide) _ _).symm.trans (hM h))
              (fun h => (findField_cons_ne "path" "post_cmd" (by decide) _ _).symm.trans (hPC h))
              ((WTstr_cons_ne "path" "name" (by decide) _ _).mp wN)
              (WTstr_of_none rest "path" (findField_not_mem rest "path" hnd.1))
              ((WTstr_cons_ne "path" "template" (by decide) _ _).mp wT)
              ((WTstr_cons_ne "path" "version" (by decide) _ _).mp wV)
              ((WTbool_cons_ne "path" "master" (by decide) _ _).mp wM)
              ((WTstr_cons_ne "path" "post_cmd" (by decide) _ _).mp wPC)
              ((resolveReqStr_cons_ne "path" "uuid" (by decide) _ _ _).symm.trans hres)
        · by_cases hk4 : k = "template"
          · subst hk4
            have hf : findField (("template", v) :: rest) "template" = some v :=
              findField_cons_self "template" v rest
            cases aT with
            | some s0 =>
              have h0 : (some v : Option Json) = none := by
                rw [← hf]
                exact hT rfl
              exact Option.noConfusion h0
            | none =>
              obtain ⟨s, rfl⟩ := wT v hf
              have hstep :
                  SapiManifests.fromFields (("template", Json.str s) :: rest)
                    aU aN aP none aV aM aPC
                  = SapiManifests.fromFields rest aU aN aP (some s) aV aM aPC := rfl
              rw [hstep, resolveStr_head "template" s rest,
                  resolveStr_cons_ne "template" "name" (by decide),
                  resolveStr_cons_ne "template" "path" (by decide),
                  resolveStr_cons_ne "template" "version" (by decide),
                  resolveBool_cons_ne "template" "master" (by decide),
                  resolveStr_cons_ne "template" "post_cmd" (by decide)]
              exact ih aU aN aP (some s) aV aM aPC u hnd.2
                (fun h => (findField_cons_ne "template" "uuid" (by decide) _ _).symm.trans (hU h))
                (fun h => (findField_cons_ne "template" "name" (by decide) _ _).symm.trans (hN h))
                (fun h => (findField_cons_ne "template" "path" (by decide) _ _).symm.trans (hP h))
                (fun _ => findField_not_mem rest "template" hnd.1)
                (fun h => (findField_cons_ne "template" "version" (by decide) _ _).symm.trans (hV h))
                (fun h => (findField_cons_ne "template" "master" (by decide) _ _).symm.trans (hM h))
                (fun h => (findField_cons_ne "template" "post_cmd" (by decide) _ _).symm.trans (hPC h))
                ((WTstr_cons_ne "template" "name" (by decide) _ _).mp wN)
                ((WTstr_cons_ne "template" "path" (by decide) _ _).mp wP)
                (WTstr_of_none rest "template" (findField_not_mem rest "template" hnd.1))
                ((WTstr_cons_ne "template" "version" (by decide) _ _).mp wV)
                ((WTbool_cons_ne "template" "master" (by decide) _ _).mp wM)
                ((WTstr_cons_ne "template" "post_cmd" (by decide) _ _).mp wPC)
                ((resolveReqStr_cons_ne "template" "uuid" (by decide) _ _ _).symm.trans hres)
          · by_cases hk5 : k = "version"
            · subst hk5
              have hf : findField (("version", v) :: rest) "version" = some v :=
                findField_cons_self "version" v rest
              cases aV with
              | some s0 =>
                have h0 : (some v : Option Json) = none := by
                  rw [← hf]
                  exact hV rfl
                exact Option.noConfusion h0
              | none =>
                obtain ⟨s, rfl⟩ := wV v hf
                have hstep :
                    SapiManifests.fromFields (("version", Json.str s) :: rest)
                      aU aN aP aT none aM aPC
                    = SapiManifests.fromFields rest aU aN aP aT (some s) aM aPC := rfl
                rw [hstep, resolveStr_head "version" s rest,
                    resolveStr_cons_ne "version" "name" (by decide),
                    resolveStr_cons_ne "version" "path" (by decide),
                    resolveStr_cons_ne "version" "template" (by decide),
                    resolveBool_cons_ne "version" "master" (by decide),
                    resolveStr_cons_ne "version" "post_cmd" (by decide)]
                exact ih aU aN aP aT (some s) aM aPC u hnd.2
                  (fun h => (findField_cons_ne "version" "uuid" (by decide) _ _).symm.trans (hU h))
                  (fun h => (findField_cons_ne "version" "name" (by decide) _ _).symm.trans (hN h))
                  (fun h => (findField_cons_ne "version" "path" (by decide) _ _).symm.trans (hP h))
                  (fun h => (findField_cons_ne "version" "template" (by decide) _ _).symm.trans (hT h))
                  (fun _ => findField_not_mem rest "version" hnd.1)
                  (fun h => (findField_cons_ne "version" "master" (by decide) _ _).symm.trans (hM h))
                  (fun h => (findField_cons_ne "version" "post_cmd" (by decide) _ _).symm.trans (hPC h))
                  ((WTstr_cons_ne "version" "name" (by decide) _ _).mp wN)
                  ((WTstr_cons_ne "version" "path" (by decide) _ _).mp wP)
                  ((WTstr_cons_ne "version" "template" (by decide) _ _).mp wT)
                  (WTstr_of_none rest "version" (findField_not_mem rest "version" hnd.1))
                  ((WTbool_cons_ne "version" "master" (by decide) _ _).mp wM)
                  ((WTstr_cons_ne "version" "post_cmd" (by decide) _ _).mp wPC)
                  ((resolveReqStr_cons_ne "version" "uuid" (by decide) _ _ _).symm.trans hres)
            · by_cases hk6 : k = "master"
              · subst hk6
                have hf : findField (("master", v) :: rest) "master" = some v :=
                  findField_cons_self "master" v rest
                cases aM with
                | some b0 =>
                  have h0 : (some v : Option Json) = none := by
                    rw [← hf]
                    exact hM rfl
                  exact Option.noConfusion h0
                | none =>
                  obtain ⟨b, rfl⟩ := wM v hf
                  have hstep :
                      SapiManifests.fromFields (("master", Json.bool b) :: rest)
                        aU aN aP aT aV none aPC
                      = SapiManifests.fromFields rest aU aN aP aT aV (some b) aPC := rfl
                  rw [hstep, resolveBool_head "master" b rest,
                      resolveStr_cons_ne "master" "name" (by decide),
                      resolveStr_cons_ne "master" "path" (by decide),
                      resolveStr_cons_ne "master" "template" (by decide),
                      resolveStr_cons_ne "master" "version" (by decide),
                      resolveStr_cons_ne "master" "post_cmd" (by decide)]
                  exact ih aU aN aP aT aV (some b) aPC u hnd.2
                    (fun h => (findField_cons_ne "master" "uuid" (by decide) _ _).symm.trans (hU h))
                    (fun h => (findField_cons_ne "master" "name" (by decide) _ _).symm.trans (hN h))
                    (fun h => (findField_cons_ne "master" "path" (by decide) _ _).symm.trans (hP h))
                    (fun h => (findField_cons_ne "master" "template" (by decide) _ _).symm.trans (hT h))
                    (fun h => (findField_cons_ne "master" "version" (by decide) _ _).symm.trans (hV h))
                    (fun _ => findField_not_mem rest "master" hnd.1)
                    (fun h => (findField_cons_ne "master" "post_cmd" (by decide) _ _).symm.trans (hPC h))
                    ((WTstr_cons_ne "master" "name" (by decide) _ _).mp wN)
                    ((WTstr_cons_ne "master" "path" (by decide) _ _).mp wP)
                    ((WTstr_cons_ne "master" "template" (by decide) _ _).mp wT)
                    ((WTstr_cons_ne "master" "version" (by decide) _ _).mp wV)
                    (WTbool_of_none rest "master" (findField_not_mem rest "master" hnd.1))
                    ((WTstr_cons_ne "master" "post_cmd" (by decide) _ _).mp wPC)
                    ((resolveReqStr_cons_ne "master" "uuid" (by decide) _ _ _).symm.trans hres)
              · by_cases hk7 : k = "post_cmd"
                · subst hk7
                  have hf : findField (("post_cmd", v) :: rest) "post_cmd" = some v :=
                    findField_cons_self "post_cmd" v rest
                  cases aPC with
                  | some s0 =>
                    have h0 : (some v : Option Json) = none := by
                      rw [← hf]
                      exact hPC rfl
                    exact Option.noConfusion h0
                  | none =>
                    obtain ⟨s, rfl⟩ := wPC v hf
                    have hstep :
                        SapiManifests.fromFields (("post_cmd", Json.str s) :: rest)
                          aU aN aP aT aV aM none
                        = SapiManifests.fromFields rest aU aN aP aT aV aM (some s) := rfl
                    rw [hstep, resolveStr_head "post_cmd" s rest,
                        resolveStr_cons_ne "post_cmd" "name" (by decide),
                        resolveStr_cons_ne "post_cmd" "path" (by decide),
                        resolveStr_cons_ne "post_cmd" "template" (by decide),
                        resolveStr_cons_ne "post_cmd" "version" (by decide),
                        resolveBool_cons_ne "post_cmd" "master" (by decide)]
                    exact ih aU aN aP aT aV aM (some s) u hnd.2
                      (fun h => (findField_cons_ne "post_cmd" "uuid" (by decide) _ _).symm.trans (hU h))
                      (fun h => (findField_cons_ne "post_cmd" "name" (by decide) _ _).symm.trans (hN h))
                      (fun h => (findField_cons_ne "post_cmd" "path" (by decide) _ _).symm.trans (hP h))
                      (fun h => (findField_cons_ne "post_cmd" "template" (by decide) _ _).symm.trans (hT h))
                      (fun h => (findField_cons_ne "post_cmd" "version" (by decide) _ _).symm.trans (hV h))
                      (fun h => (findField_cons_ne "post_cmd" "master" (by decide) _ _).symm.trans (hM h))
                      (fun _ => findField_not_mem rest "post_cmd" hnd.1)
                      ((WTstr_cons_ne "post_cmd" "name" (by decide) _ _).mp wN)
                      ((WTstr_cons_ne "post_cmd" "path" (by decide) _ _).mp wP)
                      ((WTstr_cons_ne "post_cmd" "template" (by decide) _ _).mp wT)
                      ((WTstr_cons_ne "post_cmd" "version" (by decide) _ _).mp wV)
                      ((WTbool_cons_ne "post_cmd" "master" (by decide) _ _).mp wM)
                      (WTstr_of_none rest "post_cmd" (findField_not_mem rest "post_cmd" hnd.1))
                      ((resolveReqStr_cons_ne "post_cmd" "uuid" (by decide) _ _ _).symm.trans hres)
                · have hstep :
                      SapiManifests.fromFields ((k, v) :: rest) aU aN aP aT aV aM aPC
                      = SapiManifests.fromFields rest aU aN aP aT aV aM aPC := by
                    simp only [SapiManifests.fromFields, if_neg hk1, if_neg hk2,
                      if_neg hk3, if_neg hk4, if_neg hk5, if_neg hk6, if_neg hk7]
                  rw [hstep,
                      resolveStr_cons_ne k "name" hk2,
                      resolveStr_cons_ne k "path" hk3,
                      resolveStr_cons_ne k "template" hk4,
                      resolveStr_cons_ne k "version" hk5,
                      resolveBool_cons_ne k "master" hk6,
                      resolveStr_cons_ne k "post_cmd" hk7]
                  exact ih aU aN aP aT aV aM aPC u hnd.2
                    (fun h => (findField_cons_ne k "uuid" hk1 _ _).symm.trans (hU h))
                    (fun h => (findField_cons_ne k "name" hk2 _ _).symm.trans (hN h))
                    (fun h => (findField_cons_ne k "path" hk3 _ _).symm.trans (hP h))
                    (fun h => (findField_cons_ne k "template" hk4 _ _).symm.trans (hT h))
                    (fun h => (findField_cons_ne k "version" hk5 _ _).symm.trans (hV h))
                    (fun h => (findField_cons_ne k "master" hk6 _ _).symm.trans (hM h))
                    (fun h => (findField_cons_ne k "post_cmd" hk7 _ _).symm.trans (hPC h))
                    ((WTstr_cons_ne k "name" hk2 _ _).mp wN)
                    ((WTstr_cons_ne k "path" hk3 _ _).mp wP)
                    ((WTstr_cons_ne k "template" hk4 _ _).mp wT)
                    ((WTstr_cons_ne k "version" hk5 _ _).mp wV)
                    ((WTbool_cons_ne k "master" hk6 _ _).mp wM)
                    ((WTstr_cons_ne k "post_cmd" hk7 _ _).mp wPC)
                    ((resolveReqStr_cons_ne k "uuid" hk1 _ _ _).symm.trans hres)

/-- Success characterization of the ServiceData deserializer pass on a
payload without duplicate keys: if uuid, name and application_uuid resolve
to strings and a present master field is boolean, decoding succeeds;
params/metadata accept any JSON and master defaults to false. -/
theorem serviceData_fromFields_ok :
    ∀ (fs : List (String × Json)) (aU aN aA : Option String)
      (aP aMd : Option (Option Json)) (aM : Option Bool) (u n a : String),
    (fs.map Prod.fst).Nodup →
    (aU.isSome = true → findField fs "uuid" = none) →
    (aN.isSome = true → findField fs "name" = none) →
    (aA.isSome = true → findField fs "application_uuid" = none) →
    (aP.isSome = true → findField fs "params" = none) →
    (aMd.isSome = true → findField fs "metadata" = none) →
    (aM.isSome = true → findField fs "master" = none) →
    WTbool fs "master" →
    resolveReqStr fs "uuid" aU = some u →
    resolveReqStr fs "name" aN = some n →
    resolveReqStr fs "application_uuid" aA = some a →
    ServiceData.fromFields fs aU aN aA aP aMd aM =
      .ok ⟨u, n, a, resolveOptValue fs "params" aP,
           resolveOptValue fs "metadata" aMd, resolveBool fs "master" aM⟩ := by
  intro fs
  induction fs with
  | nil =>
    intro aU aN aA aP aMd aM u n a _ _ _ _ _ _ _ _ hresU hresN hresA
    cases aU with
    | none => exact Option.noConfusion hresU
    | some su =>
      cases aN with
      | none => exact Option.noConfusion hresN
      | some sn =>
        cases aA with
        | none => exact Option.noConfusion hresA
        | some sa =>
          have h1 : su = u := Option.some.inj hresU
          have h2 : sn = n := Option.some.inj hresN
          have h3 : sa = a := Option.some.inj hresA
          subst h1
          subst h2
          subst h3
          simp only [resolveOptValue_nil, resolveBool_nil]
          rfl
  | cons hd rest ih =>
    obtain ⟨k, v⟩ := hd
    intro aU aN aA aP aMd aM u n a hnd hU hN hA hP hMd hM wM hresU hresN hresA
    rw [List.map_cons, List.nodup_cons] at hnd
    by_cases hk1 : k = "uuid"
    · subst hk1
      cases aU with
      | some s0 =>
        have h0 : (some v : Option Json) = none := by
          rw [← findField_cons_self "uuid" v rest]
          exact hU rfl
        exact Option.noConfusion h0
      | none =>
        cases v with
        | str s =>
          have hsu : s = u := Option.some.inj hresU
          subst hsu
          have hstep :
              ServiceData.fromFields (("uuid", Json.str s) :: rest)
                none aN aA aP aMd aM
              = ServiceData.fromFields rest (some s) aN aA aP aMd aM := rfl
          rw [hstep,
              resolveOptValue_cons_ne "uuid" "params" (by decide),
              resolveOptValue_cons_ne "uuid" "metadata" (by decide),
              resolveBool_cons_ne "uuid" "master" (by decide)]
          exact ih (some s) aN aA aP aMd aM s n a hnd.2
            (fun _ => findField_not_mem rest "uuid" hnd.1)
            (fun h => (findField_cons_ne "uuid" "name" (by decide) _ _).symm.trans (hN h))
            (fun h => (findField_cons_ne "uuid" "application_uuid" (by decide) _ _).symm.trans (hA h))
            (fun h => (findField_cons_ne "uuid" "params" (by decide) _ _).symm.trans (hP h))
            (fun h => (findField_cons_ne "uuid" "metadata" (by decide) _ _).symm.trans (hMd h))
            (fun h => (findField_cons_ne "uuid" "master" (by decide) _ _).symm.trans (hM h))
            ((WTbool_cons_ne "uuid" "master" (by decide) _ _).mp wM)
            rfl
            ((resolveReqStr_cons_ne "uuid" "name" (by decide) _ _ _).symm.trans hresN)
            ((resolveReqStr_cons_ne "uuid" "application_uuid" (by decide) _ _ _).symm.trans hresA)
        | null => exact Option.noConfusion hresU
        | bool b => exact Option.noConfusion hresU
        | num nn => exact Option.noConfusion hresU
        | arr xs => exact Option.noConfusion hresU
        | obj fs2 => exact Option.noConfusion hresU
    · by_cases hk2 : k = "name"
      · subst hk2
        cases aN with
        | some s0 =>
          have h0 : (some v : Option Json) = none := by
            rw [← findField_cons_self "name" v rest]
            exact hN rfl
          exact Option.noConfusion h0
        | none =>
          have hresN2 := (resolveReqStr_cons_ne "name" "uuid" (by decide) v rest aU).symm.trans hresU
          cases v with
          | str s =>
            have hsn : s = n := Option.some.inj hresN
            subst hsn
            have hstep :
                ServiceData.fromFields (("name", Json.str s) :: rest)
                  aU none aA aP aMd aM
                = ServiceData.fromFields rest aU (some s) aA aP aMd aM := rfl
            rw [hstep,
                resolveOptValue_cons_ne "name" "params" (by decide),
                resolveOptValue_cons_ne "name" "metadata" (by decide),
                resolveBool_cons_ne "name" "master" (by decide)]
            exact ih aU (some s) aA aP aMd aM u s a hnd.2
              (fun h => (findField_cons_ne "name" "uuid" (by decide) _ _).symm.trans (hU h))
              (fun _ => findField_not_mem rest "name" hnd.1)
              (fun h => (findField_cons_ne "name" "application_uuid" (by decide) _ _).symm.trans (hA h))
              (fun h => (findField_cons_ne "name" "params" (by decide) _ _).symm.trans (hP h))
              (fun h => (findField_cons_ne "name" "metadata" (by decide) _ _).symm.trans (hMd h))
              (fun h => (findField_cons_ne "name" "master" (by decide) _ _).symm.trans (hM h))
              ((WTbool_cons_ne "name" "master" (by decide) _ _).mp wM)
              ((resolveReqStr_cons_ne "name" "uuid" (by decide) _ _ _).symm.trans hresU)
              rfl
              ((resolveReqStr_cons_ne "name" "application_uuid" (by decide) _ _ _).symm.trans hresA)
          | null => exact Option.noConfusion hresN
          | bool b => exact Option.noConfusion hresN
          | num nn => exact Option.noConfusion hresN
          | arr xs => exact Option.noConfusion hresN
          | obj fs2 => exact Option.noConfusion hresN
      · by_cases hk3 : k = "application_uuid"
        · subst hk3
          cases aA with
          | some s0 =>
            have h0 : (some v : Option Json) = none := by
              rw [← findField_cons_self "application_uuid" v rest]
              exact hA rfl
            exact Option.noConfusion h0
          | none =>
            cases v with
            | str s =>
              have hsa : s = a := Option.some.inj hresA
              subst hsa
              have hstep :
                  ServiceData.fromFields (("application_uuid", Json.str s) :: rest)
                    aU aN none aP aMd aM
                  = ServiceData.fromFields rest aU aN (some s) aP aMd aM := rfl
              rw [hstep,
                  resolveOptValue_cons_ne "application_uuid" "params" (by decide),
                  resolveOptValue_cons_ne "application_uuid" "metadata" (by decide),
                  resolveBool_cons_ne "application_uuid" "master" (by decide)]
              exact ih aU aN (some s) aP aMd aM u n s hnd.2
                (fun h => (findField_cons_ne "application_uuid" "uuid" (by decide) _ _).symm.trans (hU h))
                (fun h => (findField_cons_ne "application_uuid" "name" (by decide) _ _).symm.trans (hN h))
                (fun _ => findField_not_mem rest "application_uuid" hnd.1)
                (fun h => (findField_cons_ne "application_uuid" "params" (by decide) _ _).symm.trans (hP h))
                (fun h => (findField_cons_ne "application_uuid" "metadata" (by decide) _ _).symm.trans (hMd h))
                (fun h => (findField_cons_ne "application_uuid" "master" (by decide) _ _).symm.trans (hM h))
                ((WTbool_cons_ne "application_uuid" "master" (by decide) _ _).mp wM)
                ((resolveReqStr_cons_ne "application_uuid" "uuid" (by decide) _ _ _).symm.trans hresU)
                ((resolveReqStr_cons_ne "application_uuid" "name" (by decide) _ _ _).symm.trans hresN)
                rfl
            | null => exact Option.noConfusion hresA
            | bool b => exact Option.noConfusion hresA
            | num nn => exact Option.noConfusion hresA
            | arr xs => exact Option.noConfusion hresA
            | obj fs2 => exact Option.noConfusion hresA
        · by_cases hk4 : k = "params"
          · subst hk4
            cases aP with
            | some w0 =>
              have h0 : (some v : Option Json) = none := by
                rw [← findField_cons_self "params" v rest]
                exact hP rfl
              exact Option.noConfusion h0
            | none =>
              have hstep :
                  ServiceData.fromFields (("params", v) :: rest)
                    aU aN aA none aMd aM
                  = ServiceData.fromFields rest aU aN aA (some (decOptValue v)) aMd aM := rfl
              rw [hstep, resolveOptValue_head "params" v rest,
                  resolveOptValue_cons_ne "params" "metadata" (by decide),
                  resolveBool_cons_ne "params" "master" (by decide)]
              exact ih aU aN aA (some (decOptValue v)) aMd aM u n a hnd.2
                (fun h => (findField_cons_ne "params" "uuid" (by decide) _ _).symm.trans (hU h))
                (fun h => (findField_cons_ne "params" "name" (by decide) _ _).symm.trans (hN h))
                (fun h => (findField_cons_ne "params" "application_uuid" (by decide) _ _).symm.trans (hA h))
                (fun _ => findField_not_mem rest "params" hnd.1)
                (fun h => (findField_cons_ne "params" "metadata" (by decide) _ _).symm.trans (hMd h))
                (fun h => (findField_cons_ne "params" "master" (by decide) _ _).symm.trans (hM h))
                ((WTbool_cons_ne "params" "master" (by decide) _ _).mp wM)
                ((resolveReqStr_cons_ne "params" "uuid" (by decide) _ _ _).symm.trans hresU)
                ((resolveReqStr_cons_ne "params" "name" (by decide) _ _ _).symm.trans hresN)
                ((resolveReqStr_cons_ne "params" "application_uuid" (by decide) _ _ _).symm.trans hresA)
          · by_cases hk5 : k = "metadata"
            · subst hk5
              cases aMd with
              | some w0 =>
                have h0 : (some v : Option Json) = none := by
                  rw [← findField_cons_self "metadata" v rest]
                  exact hMd rfl
                exact Option.noConfusion h0
              | none =>
                have hstep :
                    ServiceData.fromFields (("metadata", v) :: rest)
                      aU aN aA aP none aM
                    = ServiceData.fromFields rest aU aN aA aP (some (decOptValue v)) aM := rfl
                rw [hstep, resolveOptValue_head "metadata" v rest,
                    resolveOptValue_cons_ne "metadata" "params" (by decide),
                    resolveBool_cons_ne "metadata" "master" (by decide)]
                exact ih aU aN aA aP (some (decOptValue v)) aM u n a hnd.2
                  (fun h => (findField_cons_ne "metadata" "uuid" (by decide) _ _).symm.trans (hU h))
                  (fun h => (findField_cons_ne "metadata" "name" (by decide) _ _).symm.trans (hN h))
                  (fun h => (findField_cons_ne "metadata" "application_uuid" (by decide) _ _).symm.trans (hA h))
                  (fun h => (findField_cons_ne "metadata" "params" (by decide) _ _).symm.trans (hP h))
                  (fun _ => findField_not_mem rest "metadata" hnd.1)
                  (fun h => (findField_cons_ne "metadata" "master" (by decide) _ _).symm.trans (hM h))
                  ((WTbool_cons_ne "metadata" "master" (by decide) _ _).mp wM)
                  ((resolveReqStr_cons_ne "metadata" "uuid" (by decide) _ _ _).symm.trans hresU)
                  ((resolveReqStr_cons_ne "metadata" "name" (by decide) _ _ _).symm.trans hresN)
                  ((resolveReqStr_cons_ne "metadata" "application_uuid" (by decide) _ _ _).symm.trans hresA)
            · by_cases hk6 : k = "master"
              · subst hk6
                have hf : findField (("master", v) :: rest) "master" = some v :=
                  findField_cons_self "master" v rest
                cases aM with
                | some b0 =>
                  have h0 : (some v : Option Json) = none := by
                    rw [← hf]
                    exact hM rfl
                  exact Option.noConfusion h0
                | none =>
                  obtain ⟨b, rfl⟩ := wM v hf
                  have hstep :
                      ServiceData.fromFields (("master", Json.bool b) :: rest)
                        aU aN aA aP aMd none
                      = ServiceData.fromFields rest aU aN aA aP aMd (some b) := rfl
                  rw [hstep, resolveBool_head "master" b rest,
                      resolveOptValue_cons_ne "master" "params" (by decide),
                      resolveOptValue_cons_ne "master" "metadata" (by decide)]
                  exact ih aU aN aA aP aMd (some b) u n a hnd.2
                    (fun h => (findField_cons_ne "master" "uuid" (by decide) _ _).symm.trans (hU h))
                    (fun h => (findField_cons_ne "master" "name" (by decide) _ _).symm.trans (hN h))
                    (fun h => (findField_cons_ne "master" "application_uuid" (by decide) _ _).symm.trans (hA h))
                    (fun h => (findField_cons_ne "master" "params" (by decide) _ _).symm.trans (hP h))
                    (fun h => (findField_cons_ne "master" "metadata" (by decide) _ _).symm.trans (hMd h))
                    (fun _ => findField_not_mem rest "master" hnd.1)
                    (WTbool_of_none rest "master" (findField_not_mem rest "master" hnd.1))
                    ((resolveReqStr_cons_ne "master" "uuid" (by decide) _ _ _).symm.trans hresU)
                    ((resolveReqStr_cons_ne "master" "name" (by decide) _ _ _).symm.trans hresN)
                    ((resolveReqStr_cons_ne "master" "application_uuid" (by decide) _ _ _).symm.trans hresA)
              · have hstep :
                    ServiceData.fromFields ((k, v) :: rest) aU aN aA aP aMd aM
                    = ServiceData.fromFields rest aU aN aA aP aMd aM := by
                  simp only [ServiceData.fromFields, if_neg hk1, if_neg hk2,
                    if_neg hk3, if_neg hk4, if_neg hk5, if_neg hk6]
                rw [hstep,
                    resolveOptValue_cons_ne k "params" hk4,
                    resolveOptValue_cons_ne k "metadata" hk5,
                    resolveBool_cons_ne k "master" hk6]
                exact ih aU aN aA aP aMd aM u n a hnd.2
                  (fun h => (findField_cons_ne k "uuid" hk1 _ _).symm.trans (hU h))
                  (fun h => (findField_cons_ne k "name" hk2 _ _).symm.trans (hN h))
                  (fun h => (findField_cons_ne k "application_uuid" hk3 _ _).symm.trans (hA h))
                  (fun h => (findField_cons_ne k "params" hk4 _ _).symm.trans (hP h))
                  (fun h => (findField_cons_ne k "metadata" hk5 _ _).symm.trans (hMd h))
                  (fun h => (findField_cons_ne k "master" hk6 _ _).symm.trans (hM h))
                  ((WTbool_cons_ne k "master" hk6 _ _).mp wM)
                  ((resolveReqStr_cons_ne k "uuid" hk1 _ _ _).symm.trans hresU)
                  ((resolveReqStr_cons_ne k "name" hk2 _ _ _).symm.trans hresN)
                  ((resolveReqStr_cons_ne k "application_uuid" hk3 _ _ _).symm.trans hresA)

/-- If the payload has no uuid field, the SapiManifests deserializer fails
(whatever else the payload holds). -/
theorem SapiManifests.fromFields_missing_uuid :
    ∀ (fs : List (String × Json)) (aN aP aT aV : Option String)
      (aM : Option Bool) (aPC : Option String),
    findField fs "uuid" = none →
    ∃ e, SapiManifests.fromFields fs none aN aP aT aV aM aPC = .error e := by
  intro fs
  induction fs with
  | nil =>
    intro aN aP aT aV aM aPC _
    exact ⟨"missing field uuid", rfl⟩
  | cons hd rest ih =>
    obtain ⟨k, v⟩ := hd
    intro aN aP aT aV aM aPC h
    by_cases hk1 : k = "uuid"
    · subst hk1
      rw [findField_cons_self] at h
      exact Option.noConfusion h
    · have h2 : findField rest "uuid" = none :=
        (findField_cons_ne k "uuid" hk1 _ _).symm.trans h
      by_cases hk2 : k = "name"
      · subst hk2
        cases aN with
        | some s0 => exact ⟨_, rfl⟩
        | none =>
          cases v with
          | str s => exact ih (some s) aP aT aV aM aPC h2
          | null => exact ⟨_, rfl⟩
          | bool b => exact ⟨_, rfl⟩
          | num nn => exact ⟨_, rfl⟩
          | arr xs => exact ⟨_, rfl⟩
          | obj fs2 => exact ⟨_, rfl⟩
      · by_cases hk3 : k = "path"
        · subst hk3
          cases aP with
          | some s0 => exact ⟨_, rfl⟩
          | none =>
            cases v with
            | str s => exact ih aN (some s) aT aV aM aPC h2
            | null => exact ⟨_, rfl⟩
            | bool b => exact ⟨_, rfl⟩
            | num nn => exact ⟨_, rfl⟩
            | arr xs => exact ⟨_, rfl⟩
            | obj fs2 => exact ⟨_, rfl⟩
        · by_cases hk4 : k = "template"
          · subst hk4
            cases aT with
            | some s0 => exact ⟨_, rfl⟩
            | none =>
              cases v with
              | str s => exact ih aN aP (some s) aV aM aPC h2
              | null => exact ⟨_, rfl⟩
              | bool b => exact ⟨_, rfl⟩
              | num nn => exact ⟨_, rfl⟩
              | arr xs => exact ⟨_, rfl⟩
              | obj fs2 => exact ⟨_, rfl⟩
          · by_cases hk5 : k = "version"
            · subst hk5
              cases aV with
              | some s0 => exact ⟨_, rfl⟩
              | none =>
                cases v with
                | str s => exact ih aN aP aT (some s) aM aPC h2
                | null => exact ⟨_, rfl⟩
                | bool b => exact ⟨_, rfl⟩
                | num nn => exact ⟨_, rfl⟩
                | arr xs => exact ⟨_, rfl⟩
                | obj fs2 => exact ⟨_, rfl⟩
            · by_cases hk6 : k = "master"
              · subst hk6
                cases aM with
                | some b0 => exact ⟨_, rfl⟩
                | none =>
                  cases v with
                  | bool b => exact ih aN aP aT aV (some b) aPC h2
                  | null => exact ⟨_, rfl⟩
                  | str s => exact ⟨_, rfl⟩
                  | num nn => exact ⟨_, rfl⟩
                  | arr xs => exact ⟨_, rfl⟩
                  | obj fs2 => exact ⟨_, rfl⟩
              · by_cases hk7 : k = "post_cmd"
                · subst hk7
                  cases aPC with
                  | some s0 => exact ⟨_, rfl⟩
                  | none =>
                    cases v with
                    | str s => exact ih aN aP aT aV aM (some s) h2
                    | null => exact ⟨_, rfl⟩
                    | bool b => exact ⟨_, rfl⟩
                    | num nn => exact ⟨_, rfl⟩
                    | arr xs => exact ⟨_, rfl⟩
                    | obj fs2 => exact ⟨_, rfl⟩
                · have hstep :
                      SapiManifests.fromFields ((k, v) :: rest) none aN aP aT aV aM aPC
                      = SapiManifests.fromFields rest none aN aP aT aV aM aPC := by
                    simp only [SapiManifests.fromFields, if_neg hk1, if_neg hk2,
                      if_neg hk3, if_neg hk4, if_neg hk5, if_neg hk6, if_neg hk7]
                  rw [hstep]
                  exact ih aN aP aT aV aM aPC h2

/-- Equation lemma: the ZoneConfig deserializer on a manifests field with
the slot empty decodes the value as a manifest array and continues. -/
theorem ZoneConfig.fromFields_manifests_cons (v : Json)
    (rest : List (String × Json)) (aMeta : Option Json) :
    ZoneConfig.fromFields (("manifests", v) :: rest) none aMeta =
      match decArray SapiManifests.fromJson v with
      | .error e => .error e
      | .ok ms => ZoneConfig.fromFields rest (some ms) aMeta := rfl

/-- If the payload lacks its manifests or its metadata member, the
ZoneConfig deserializer fails. -/
theorem ZoneConfig.fromFields_missing :
    ∀ (fs : List (String × Json)) (aMan : Option (List SapiManifests))
      (aMeta : Option Json),
    (aMan = none ∧ findField fs "manifests" = none) ∨
      (aMeta = none ∧ findField fs "metadata" = none) →
    ∃ e, ZoneConfig.fromFields fs aMan aMeta = .error e := by
  intro fs
  induction fs with
  | nil =>
    intro aMan aMeta h
    rcases h with ⟨h1, _⟩ | ⟨h1, _⟩
    · subst h1
      exact ⟨_, rfl⟩
    · subst h1
      cases aMan with
      | none => exact ⟨_, rfl⟩
      | some ms => exact ⟨_, rfl⟩
  | cons hd rest ih =>
    obtain ⟨k, v⟩ := hd
    intro aMan aMeta h
    by_cases hk1 : k = "manifests"
    · subst hk1
      rcases h with ⟨h1, h2⟩ | ⟨h1, h2⟩
      · rw [findField_cons_self] at h2
        exact Option.noConfusion h2
      · subst h1
        cases aMan with
        | some ms0 => exact ⟨_, rfl⟩
        | none =>
          rw [ZoneConfig.fromFields_manifests_cons]
          cases hdc : decArray SapiManifests.fromJson v with
          | error e => exact ⟨e, rfl⟩
          | ok ms =>
            exact ih (some ms) none
              (Or.inr ⟨rfl,
                (findField_cons_ne "manifests" "metadata" (by decide) _ _).symm.trans h2⟩)
    · by_cases hk2 : k = "metadata"
      · subst hk2
        rcases h with ⟨h1, h2⟩ | ⟨h1, h2⟩
        · subst h1
          cases aMeta with
          | some m0 => exact ⟨_, rfl⟩
          | none =>
            exact ih none (some v)
              (Or.inl ⟨rfl,
                (findField_cons_ne "metadata" "manifests" (by decide) _ _).symm.trans h2⟩)
        · rw [findField_cons_self] at h2
          exact Option.noConfusion h2
      · have hstep :
            ZoneConfig.fromFields ((k, v) :: rest) aMan aMeta
            = ZoneConfig.fromFields rest aMan aMeta := by
          simp only [ZoneConfig.fromFields, if_neg hk1, if_neg hk2]
        rw [hstep]
        rcases h with ⟨h1, h2⟩ | ⟨h1, h2⟩
        · exact ih aMan aMeta
            (Or.inl ⟨h1, (findField_cons_ne k "manifests" hk1 _ _).symm.trans h2⟩)
        · exact ih aMan aMeta
            (Or.inr ⟨h1, (findField_cons_ne k "metadata" hk2 _ _).symm.trans h2⟩)

/-! ### Unknown fields are ignored -/

/-- The sublist of an object payload whose keys the record type knows. -/
def keepKnown (K : List String) : List (String × Json) → List (String × Json)
  | [] => []
  | (k, v) :: rest =>
    if k ∈ K then (k, v) :: keepKnown K rest else keepKnown K rest

/-- The field names the SapiManifests deserializer recognizes. -/
def sapiManifestsKeys : List String :=
  ["uuid", "name", "path", "template", "version", "master", "post_cmd"]

/-- The field names the ServiceData deserializer recognizes. -/
def serviceDataKeys : List String :=
  ["uuid", "name", "application_uuid", "params", "metadata", "master"]

/-- The field names the InstanceData deserializer recognizes. -/
def instanceDataKeys : List String :=
  ["uuid", "service_uuid", "params", "metadata"]

/-- The field names the ApplicationData deserializer recognizes. -/
def applicationDataKeys : List String :=
  ["uuid", "name", "owner_uuid", "params", "metadata", "manifests"]

/-- The field names the ZoneConfig deserializer recognizes. -/
def zoneConfigKeys : List String := ["manifests", "metadata"]

/-- Dropping unknown fields does not change a SapiManifests decode. -/
theorem sapiManifests_fromFields_keepKnown :
    ∀ (fs : List (String × Json)) (aU aN aP aT aV : Option String)
      (aM : Option Bool) (aPC : Option String),
    SapiManifests.fromFields (keepKnown sapiManifestsKeys fs) aU aN aP aT aV aM aPC
      = SapiManifests.fromFields fs aU aN aP aT aV aM aPC := by
  intro fs
  induction fs with
  | nil => intro aU aN aP aT aV aM aPC; rfl
  | cons hd rest ih =>
    obtain ⟨k, v⟩ := hd
    intro aU aN aP aT aV aM aPC
    by_cases hk1 : k = "uuid"
    · subst hk1
      have hkeep : keepKnown sapiManifestsKeys (("uuid", v) :: rest)
          = ("uuid", v) :: keepKnown sapiManifestsKeys rest := rfl
      rw [hkeep]
      cases aU with
      | some s0 => rfl
      | none =>
        cases v with
        | str s => exact ih (some s) aN aP aT aV aM aPC
        | null => rfl
        | bool b => rfl
        | num nn => rfl
        | arr xs => rfl
        | obj fs2 => rfl
    · by_cases hk2 : k = "name"
      · subst hk2
        have hkeep : keepKnown sapiManifestsKeys (("name", v) :: rest)
            = ("name", v) :: keepKnown sapiManifestsKeys rest := rfl
        rw [hkeep]
        cases aN with
        | some s0 => rfl
        | none =>
          cases v with
          | str s => exact ih aU (some s) aP aT aV aM aPC
          | null => rfl
          | bool b => rfl
          | num nn => rfl
          | arr xs => rfl
          | obj fs2 => rfl
      · by_cases hk3 : k = "path"
        · subst hk3
          have hkeep : keepKnown sapiManifestsKeys (("path", v) :: rest)
              = ("path", v) :: keepKnown sapiManifestsKeys rest := rfl
          rw [hkeep]
          cases aP with
          | some s0 => rfl
          | none =>
            cases v with
            | str s => exact ih aU aN (some s) aT aV aM aPC
            | null => rfl
            | bool b => rfl
            | num nn => rfl
            | arr xs => rfl
            | obj fs2 => rfl
        · by_cases hk4 : k = "template"
          · subst hk4
            have hkeep : keepKnown sapiManifestsKeys (("template", v) :: rest)
                = ("template", v) :: keepKnown sapiManifestsKeys rest := rfl
            rw [hkeep]
            cases aT with
            | some s0 => rfl
            | none =>
              cases v with
              | str s => exact ih aU aN aP (some s) aV aM aPC
              | null => rfl
              | bool b => rfl
              | num nn => rfl
              | arr xs => rfl
              | obj fs2 => rfl
          · by_cases hk5 : k = "version"
            · subst hk5
              have hkeep : keepKnown sapiManifestsKeys (("version", v) :: rest)
                  = ("version", v) :: keepKnown sapiManifestsKeys rest := rfl
              rw [hkeep]
              cases aV with
              | some s0 => rfl
              | none =>
                cases v with
                | str s => exact ih aU aN aP aT (some s) aM aPC
                | null => rfl
                | bool b => rfl
                | num nn => rfl
                | arr xs => rfl
                | obj fs2 => rfl
            · by_cases hk6 : k = "master"
              · subst hk6
                have hkeep : keepKnown sapiManifestsKeys (("master", v) :: rest)
                    = ("master", v) :: keepKnown sapiManifestsKeys rest := rfl
                rw [hkeep]
                cases aM with
                | some b0 => rfl
                | none =>
                  cases v with
                  | bool b => exact ih aU aN aP aT aV (some b) aPC
                  | null => rfl
                  | str s => rfl
                  | num nn => rfl
                  | arr xs => rfl
                  | obj fs2 => rfl
              · by_cases hk7 : k = "post_cmd"
                · subst hk7
                  have hkeep : keepKnown sapiManifestsKeys (("post_cmd", v) :: rest)
                      = ("post_cmd", v) :: keepKnown sapiManifestsKeys rest := rfl
                  rw [hkeep]
                  cases aPC with
                  | some s0 => rfl
                  | none =>
                    cases v with
                    | str s => exact ih aU aN aP aT aV aM (some s)
                    | null => rfl
                    | bool b => rfl
                    | num nn => rfl
                    | arr xs => rfl
                    | obj fs2 => rfl
                · have hnotmem : k ∉ sapiManifestsKeys := by
                    simp only [sapiManifestsKeys, List.mem_cons, List.mem_singleton]
                    push_neg
                    exact ⟨hk1, hk2, hk3, hk4, hk5, hk6, hk7, List.not_mem_nil k⟩
                  have hkeep : keepKnown sapiManifestsKeys ((k, v) :: rest)
                      = keepKnown sapiManifestsKeys rest := by
                    simp only [keepKnown, if_neg hnotmem]
                  have hstep :
                      SapiManifests.fromFields ((k, v) :: rest) aU aN aP aT aV aM aPC
                      = SapiManifests.fromFields rest aU aN aP aT aV aM aPC := by
                    simp only [SapiManifests.fromFields, if_neg hk1, if_neg hk2,
                      if_neg hk3, if_neg hk4, if_neg hk5, if_neg hk6, if_neg hk7]
                  rw [hkeep, hstep]
                  exact ih aU aN aP aT aV aM aPC

/-- Dropping unknown fields does not change a ServiceData decode. -/
theorem serviceData_fromFields_keepKnown :
    ∀ (fs : List (String × Json)) (aU aN aA : Option String)
      (aP aMd : Option (Option Json)) (aM : Option Bool),
    ServiceData.fromFields (keepKnown serviceDataKeys fs) aU aN aA aP aMd aM
      = ServiceData.fromFields fs aU aN aA aP aMd aM := by
  intro fs
  induction fs with
  | nil => intro aU aN aA aP aMd aM; rfl
  | cons hd rest ih =>
    obtain ⟨k, v⟩ := hd
    intro aU aN aA aP aMd aM
    by_cases hk1 : k = "uuid"
    · subst hk1
      have hkeep : keepKnown serviceDataKeys (("uuid", v) :: rest)
          = ("uuid", v) :: keepKnown serviceDataKeys rest := rfl
      rw [hkeep]
      cases aU with
      | some s0 => rfl
      | none =>
        cases v with
        | str s => exact ih (some s) aN aA aP aMd aM
        | null => rfl
        | bool b => rfl
        | num nn => rfl
        | arr xs => rfl
        | obj fs2 => rfl
    · by_cases hk2 : k = "name"
      · subst hk2
        have hkeep : keepKnown serviceDataKeys (("name", v) :: rest)
            = ("name", v) :: keepKnown serviceDataKeys rest := rfl
        rw [hkeep]
        cases aN with
        | some s0 => rfl
        | none =>
          cases v with
          | str s => exact ih aU (some s) aA aP aMd aM
          | null => rfl
          | bool b => rfl
          | num nn => rfl
          | arr xs => rfl
          | obj fs2 => rfl
      · by_cases hk3 : k = "application_uuid"
        · subst hk3
          have hkeep : keepKnown serviceDataKeys (("application_uuid", v) :: rest)
              = ("application_uuid", v) :: keepKnown serviceDataKeys rest := rfl
          rw [hkeep]
          cases aA with
          | some s0 => rfl
          | none =>
            cases v with
            | str s => exact ih aU aN (some s) aP aMd aM
            | null => rfl
            | bool b => rfl
            | num nn => rfl
            | arr xs => rfl
            | obj fs2 => rfl
        · by_cases hk4 : k = "params"
          · subst hk4
            have hkeep : keepKnown serviceDataKeys (("params", v) :: rest)
                = ("params", v) :: keepKnown serviceDataKeys rest := rfl
            rw [hkeep]
            cases aP with
            | some w0 => rfl
            | none => exact ih aU aN aA (some (decOptValue v)) aMd aM
          · by_cases hk5 : k = "metadata"
            · subst hk5
              have hkeep : keepKnown serviceDataKeys (("metadata", v) :: rest)
                  = ("metadata", v) :: keepKnown serviceDataKeys rest := rfl
              rw [hkeep]
              cases aMd with
              | some w0 => rfl
              | none => exact ih aU aN aA aP (some (decOptValue v)) aM
            · by_cases hk6 : k = "master"
              · subst hk6
                have hkeep : keepKnown serviceDataKeys (("master", v) :: rest)
                    = ("master", v) :: keepKnown serviceDataKeys rest := rfl
                rw [hkeep]
                cases aM with
                | some b0 => rfl
                | none =>
                  cases v with
                  | bool b => exact ih aU aN aA aP aMd (some b)
                  | null => rfl
                  | str s => rfl
                  | num nn => rfl
                  | arr xs => rfl
                  | obj fs2 => rfl
              · have hnotmem : k ∉ serviceDataKeys := by
                  simp only [serviceDataKeys, List.mem_cons]
                  push_neg
                  exact ⟨hk1, hk2, hk3, hk4, hk5, hk6, List.not_mem_nil k⟩
                have hkeep : keepKnown serviceDataKeys ((k, v) :: rest)
                    = keepKnown serviceDataKeys rest := by
                  simp only [keepKnown, if_neg hnotmem]
                have hstep :
                    ServiceData.fromFields ((k, v) :: rest) aU aN aA aP aMd aM
                    = ServiceData.fromFields rest aU aN aA aP aMd aM := by
                  simp only [ServiceData.fromFields, if_neg hk1, if_neg hk2,
                    if_neg hk3, if_neg hk4, if_neg hk5, if_neg hk6]
                rw [hkeep, hstep]
                exact ih aU aN aA aP aMd aM

/-- Dropping unknown fields does not change an InstanceData decode. -/
theorem instanceData_fromFields_keepKnown :
    ∀ (fs : List (String × Json)) (aU aS : Option String)
      (aP aMd : Option (Option Json)),
    InstanceData.fromFields (keepKnown instanceDataKeys fs) aU aS aP aMd
      = InstanceData.fromFields fs aU aS aP aMd := by
  intro fs
  induction fs with
  | nil => intro aU aS aP aMd; rfl
  | cons hd rest ih =>
    obtain ⟨k, v⟩ := hd
    intro aU aS aP aMd
    by_cases hk1 : k = "uuid"
    · subst hk1
      have hkeep : keepKnown instanceDataKeys (("uuid", v) :: rest)
          = ("uuid", v) :: keepKnown instanceDataKeys rest := rfl
      rw [hkeep]
      cases aU with
      | some s0 => rfl
      | none =>
        cases v with
        | str s => exact ih (some s) aS aP aMd
        | null => rfl
        | bool b => rfl
        | num nn => rfl
        | arr xs => rfl
        | obj fs2 => rfl
    · by_cases hk2 : k = "service_uuid"
      · subst hk2
        have hkeep : keepKnown instanceDataKeys (("service_uuid", v) :: rest)
            = ("service_uuid", v) :: keepKnown instanceDataKeys rest := rfl
        rw [hkeep]
        cases aS with
        | some s0 => rfl
        | none =>
          cases v with
          | str s => exact ih aU (some s) aP aMd
          | null => rfl
          | bool b => rfl
          | num nn => rfl
          | arr xs => rfl
          | obj fs2 => rfl
      · by_cases hk3 : k = "params"
        · subst hk3
          have hkeep : keepKnown instanceDataKeys (("params", v) :: rest)
              = ("params", v) :: keepKnown instanceDataKeys rest := rfl
          rw [hkeep]
          cases aP with
          | some w0 => rfl
          | none => exact ih aU aS (some (decOptValue v)) aMd
        · by_cases hk4 : k = "metadata"
          · subst hk4
            have hkeep : keepKnown instanceDataKeys (("metadata", v) :: rest)
                = ("metadata", v) :: keepKnown instanceDataKeys rest := rfl
            rw [hkeep]
            cases aMd with
            | some w0 => rfl
            | none => exact ih aU aS aP (some (decOptValue v))
          · have hnotmem : k ∉ instanceDataKeys := by
              simp only [instanceDataKeys, List.mem_cons]
              push_neg
              exact ⟨hk1, hk2, hk3, hk4, List.not_mem_nil k⟩
            have hkeep : keepKnown instanceDataKeys ((k, v) :: rest)
                = keepKnown instanceDataKeys rest := by
              simp only [keepKnown, if_neg hnotmem]
            have hstep :
                InstanceData.fromFields ((k, v) :: rest) aU aS aP aMd
                = InstanceData.fromFields rest aU aS aP aMd := by
              simp only [InstanceData.fromFields, if_neg hk1, if_neg hk2,
                if_neg hk3, if_neg hk4]
            rw [hkeep, hstep]
            exact ih aU aS aP aMd

/-- Dropping unknown fields does not change an ApplicationData decode. -/
theorem applicationData_fromFields_keepKnown :
    ∀ (fs : List (String × Json)) (aU aN aO : Option String)
      (aP aMd aMan : Option (Option Json)),
    ApplicationData.fromFields (keepKnown applicationDataKeys fs) aU aN aO aP aMd aMan
      = ApplicationData.fromFields fs aU aN aO aP aMd aMan := by
  intro fs
  induction fs with
  | nil => intro aU aN aO aP aMd aMan; rfl
  | cons hd rest ih =>
    obtain ⟨k, v⟩ := hd
    intro aU aN aO aP aMd aMan
    by_cases hk1 : k = "uuid"
    · subst hk1
      have hkeep : keepKnown applicationDataKeys (("uuid", v) :: rest)
          = ("uuid", v) :: keepKnown applicationDataKeys rest := rfl
      rw [hkeep]
      cases aU with
      | some s0 => rfl
      | none =>
        cases v with
        | str s => exact ih (some s) aN aO aP aMd aMan
        | null => rfl
        | bool b => rfl
        | num nn => rfl
        | arr xs => rfl
        | obj fs2 => rfl
    · by_cases hk2 : k = "name"
      · subst hk2
        have hkeep : keepKnown applicationDataKeys (("name", v) :: rest)
            = ("name", v) :: keepKnown applicationDataKeys rest := rfl
        rw [hkeep]
        cases aN with
        | some s0 => rfl
        | none =>
          cases v with
          | str s => exact ih aU (some s) aO aP aMd aMan
          | null => rfl
          | bool b => rfl
          | num nn => rfl
          | arr xs => rfl
          | obj fs2 => rfl
      · by_cases hk3 : k = "owner_uuid"
        · subst hk3
          have hkeep : keepKnown applicationDataKeys (("owner_uuid", v) :: rest)
              = ("owner_uuid", v) :: keepKnown applicationDataKeys rest := rfl
          rw [hkeep]
          cases aO with
          | some s0 => rfl
          | none =>
            cases v with
            | str s => exact ih aU aN (some s) aP aMd aMan
            | null => rfl
            | bool b => rfl
            | num nn => rfl
            | arr xs => rfl
            | obj fs2 => rfl
        · by_cases hk4 : k = "params"
          · subst hk4
            have hkeep : keepKnown applicationDataKeys (("params", v) :: rest)
                = ("params", v) :: keepKnown applicationDataKeys rest := rfl
            rw [hkeep]
            cases aP with
            | some w0 => rfl
            | none => exact ih aU aN aO (some (decOptValue v)) aMd aMan
          · by_cases hk5 : k = "metadata"
            · subst hk5
              have hkeep : keepKnown applicationDataKeys (("metadata", v) :: rest)
                  = ("metadata", v) :: keepKnown applicationDataKeys rest := rfl
              rw [hkeep]
              cases aMd with
              | some w0 => rfl
              | none => exact ih aU aN aO aP (some (decOptValue v)) aMan
            · by_cases hk6 : k = "manifests"
              · subst hk6
                have hkeep : keepKnown applicationDataKeys (("manifests", v) :: rest)
                    = ("manifests", v) :: keepKnown applicationDataKeys rest := rfl
                rw [hkeep]
                cases aMan with
                | some w0 => rfl
                | none => exact ih aU aN aO aP aMd (some (decOptValue v))
              · have hnotmem : k ∉ applicationDataKeys := by
                  simp only [applicationDataKeys, List.mem_cons]
                  push_neg
                  exact ⟨hk1, hk2, hk3, hk4, hk5, hk6, List.not_mem_nil k⟩
                have hkeep : keepKnown applicationDataKeys ((k, v) :: rest)
                    = keepKnown applicationDataKeys rest := by
                  simp only [keepKnown, if_neg hnotmem]
                have hstep :
                    ApplicationData.fromFields ((k, v) :: rest) aU aN aO aP aMd aMan
                    = ApplicationData.fromFields rest aU aN aO aP aMd aMan := by
                  simp only [ApplicationData.fromFields, if_neg hk1, if_neg hk2,
                    if_neg hk3, if_neg hk4, if_neg hk5, if_neg hk6]
                rw [hkeep, hstep]
                exact ih aU aN aO aP aMd aMan

/-- Dropping unknown fields does not change a ZoneConfig decode. -/
theorem zoneConfig_fromFields_keepKnown :
    ∀ (fs : List (String × Json)) (aMan : Option (List SapiManifests))
      (aMeta : Option Json),
    ZoneConfig.fromFields (keepKnown zoneConfigKeys fs) aMan aMeta
      = ZoneConfig.fromFields fs aMan aMeta := by
  intro fs
  induction fs with
  | nil => intro aMan aMeta; rfl
  | cons hd rest ih =>
    obtain ⟨k, v⟩ := hd
    intro aMan aMeta
    by_cases hk1 : k = "manifests"
    · subst hk1
      have hkeep : keepKnown zoneConfigKeys (("manifests", v) :: rest)
          = ("manifests", v) :: keepKnown zoneConfigKeys rest := rfl
      rw [hkeep]
      cases aMan with
      | some ms0 => rfl
      | none =>
        rw [ZoneConfig.fromFields_manifests_cons, ZoneConfig.fromFields_manifests_cons]
        cases hdc : decArray SapiManifests.fromJson v with
        | error e => rfl
        | ok ms => exact ih (some ms) aMeta
    · by_cases hk2 : k = "metadata"
      · subst hk2
        have hkeep : keepKnown zoneConfigKeys (("metadata", v) :: rest)
            = ("metadata", v) :: keepKnown zoneConfigKeys rest := rfl
        rw [hkeep]
        cases aMeta with
        | some m0 => rfl
        | none => exact ih aMan (some v)
      · have hnotmem : k ∉ zoneConfigKeys := by
          simp only [zoneConfigKeys, List.mem_cons]
          push_neg
          exact ⟨hk1, hk2, List.not_mem_nil k⟩
        have hkeep : keepKnown zoneConfigKeys ((k, v) :: rest)
            = keepKnown zoneConfigKeys rest := by
          simp only [keepKnown, if_neg hnotmem]
        have hstep :
            ZoneConfig.fromFields ((k, v) :: rest) aMan aMeta
            = ZoneConfig.fromFields rest aMan aMeta := by
          simp only [ZoneConfig.fromFields, if_neg hk1, if_neg hk2]
        rw [hkeep, hstep]
        exact ih aMan aMeta

/-! ### Serialize-then-deserialize round trips -/

/-- Decoding a serialized SapiManifests yields the original record. -/
theorem sapiManifests_fromJson_toJson (m : SapiManifests) :
    SapiManifests.fromJson (SapiManifests.toJson m) = .ok m := rfl

/-- Elementwise round trip for manifest lists. -/
theorem decodeJsonList_toJson :
    ∀ (ms : List SapiManifests),
    decodeJsonList SapiManifests.fromJson (ms.map SapiManifests.toJson)
      = .ok ms
  | [] => rfl
  | m :: ms => by
    rw [List.map_cons]
    simp only [decodeJsonList, sapiManifests_fromJson_toJson,
      decodeJsonList_toJson ms]

/-- Decoding a serialized ZoneConfig yields the original record. -/
theorem zoneConfig_fromJson_toJson (z : ZoneConfig) :
    ZoneConfig.fromJson (ZoneConfig.toJson z) = .ok z := by
  show ZoneConfig.fromFields
      [("manifests", Json.arr (z.manifests.map SapiManifests.toJson)),
       ("metadata", z.metadata)] none none = Except.ok z
  rw [ZoneConfig.fromFields_manifests_cons]
  have harr : decArray SapiManifests.fromJson
      (Json.arr (z.manifests.map SapiManifests.toJson))
      = Except.ok z.manifests := decodeJsonList_toJson z.manifests
  rw [harr]
  rfl

/-! ### Claim theorems -/

/-- C1: decoding a JSON object payload that carries its required
identifier fields as strings but omits a known defaultable field succeeds
and yields the documented default for the omitted field — false for
ServiceData.master, and empty string / false for the serde(default)
fields of SapiManifests — never a decode error (payloads are objects
without duplicate keys and any present known field is well typed). -/
theorem sapi_C1 :
    (∀ (fs : List (String × Json)) (u n a : String),
      (fs.map Prod.fst).Nodup →
      findField fs "uuid" = some (Json.str u) →
      findField fs "name" = some (Json.str n) →
      findField fs "application_uuid" = some (Json.str a) →
      findField fs "master" = none →
      ∃ sd : ServiceData, ServiceData.fromJson (Json.obj fs) = .ok sd ∧
        sd.uuid = u ∧ sd.name = n ∧ sd.application_uuid = a ∧
        sd.master = false) ∧
    (∀ (fs : List (String × Json)) (u : String),
      (fs.map Prod.fst).Nodup →
      findField fs "uuid" = some (Json.str u) →
      WTstr fs "name" → WTstr fs "path" → WTstr fs "template" →
      WTstr fs "version" → WTbool fs "master" → WTstr fs "post_cmd" →
      ∃ m : SapiManifests, SapiManifests.fromJson (Json.obj fs) = .ok m ∧
        m.uuid = u ∧
        (findField fs "name" = none → m.name = "") ∧
        (findField fs "path" = none → m.path = "") ∧
        (findField fs "template" = none → m.template = "") ∧
        (findField fs "version" = none → m.version = "") ∧
        (findField fs "master" = none → m.master = false) ∧
        (findField fs "post_cmd" = none → m.post_cmd = "")) := by
  constructor
  · intro fs u n a hnd hu hn ha hm
    have h := serviceData_fromFields_ok fs none none none none none none u n a
      hnd
      (fun hh => Bool.noConfusion hh) (fun hh => Bool.noConfusion hh)
      (fun hh => Bool.noConfusion hh) (fun hh => Bool.noConfusion hh)
      (fun hh => Bool.noConfusion hh) (fun hh => Bool.noConfusion hh)
      (WTbool_of_none fs "master" hm)
      (by simp [resolveReqStr, hu])
      (by simp [resolveReqStr, hn])
      (by simp [resolveReqStr, ha])
    exact ⟨_, h, rfl, rfl, rfl, by simp [resolveBool, hm]⟩
  · intro fs u hnd hu wn wp wt wv wm wpc
    have h := sapiManifests_fromFields_ok fs none none none none none none none
      u hnd
      (fun hh => Bool.noConfusion hh) (fun hh => Bool.noConfusion hh)
      (fun hh => Bool.noConfusion hh) (fun hh => Bool.noConfusion hh)
      (fun hh => Bool.noConfusion hh) (fun hh => Bool.noConfusion hh)
      (fun hh => Bool.noConfusion hh)
      wn wp wt wv wm wpc
      (by simp [resolveReqStr, hu])
    refine ⟨_, h, rfl, ?_, ?_, ?_, ?_, ?_, ?_⟩
    · intro hne
      simp [resolveStr, hne]
    · intro hne
      simp [resolveStr, hne]
    · intro hne
      simp [resolveStr, hne]
    · intro hne
      simp [resolveStr, hne]
    · intro hne
      simp [resolveBool, hne]
    · intro hne
      simp [resolveStr, hne]

/-- C1 witness: the theorem applied at concrete payloads that omit the
defaultable fields. -/
theorem sapi_C1_witness :
    (∃ sd : ServiceData,
      ServiceData.fromJson (Json.obj
        [("uuid", Json.str "u1"), ("name", Json.str "n1"),
         ("application_uuid", Json.str "a1")]) = .ok sd ∧
      sd.uuid = "u1" ∧ sd.name = "n1" ∧ sd.application_uuid = "a1" ∧
      sd.master = false) ∧
    (∃ m : SapiManifests,
      SapiManifests.fromJson (Json.obj [("uuid", Json.str "m1")]) = .ok m ∧
      m.uuid = "m1" ∧
      (findField [("uuid", Json.str "m1")] "name" = none → m.name = "") ∧
      (findField [("uuid", Json.str "m1")] "path" = none → m.path = "") ∧
      (findField [("uuid", Json.str "m1")] "template" = none → m.template = "") ∧
      (findField [("uuid", Json.str "m1")] "version" = none → m.version = "") ∧
      (findField [("uuid", Json.str "m1")] "master" = none → m.master = false) ∧
      (findField [("uuid", Json.str "m1")] "post_cmd" = none → m.post_cmd = "")) :=
  ⟨sapi_C1.1 [("uuid", Json.str "u1"), ("name", Json.str "n1"),
      ("application_uuid", Json.str "a1")] "u1" "n1" "a1"
      (by decide) rfl rfl rfl rfl,
   sapi_C1.2 [("uuid", Json.str "m1")] "m1" (by decide) rfl
      (WTstr_of_none _ _ rfl) (WTstr_of_none _ _ rfl) (WTstr_of_none _ _ rfl)
      (WTstr_of_none _ _ rfl) (WTbool_of_none _ _ rfl) (WTstr_of_none _ _ rfl)⟩

/-- C3 counterexample: the claim says every SapiManifests field including
uuid is optional, so the empty object should decode; in fact uuid carries
no serde(default) and decoding the empty object fails. -/
theorem sapi_C3_counterexample :
    SapiManifests.fromJson (Json.obj []) = .error "missing field uuid" := rfl

/-- C3 amended: every SapiManifests field except uuid is optional with
empty-string/false defaults; uuid is required, so a payload with a string
uuid (and well-typed present fields, no duplicate keys) decodes with
defaults for the absent fields, while a payload lacking uuid fails to
decode. -/
theorem sapi_C3 :
    (∀ (fs : List (String × Json)) (u : String),
      (fs.map Prod.fst).Nodup →
      findField fs "uuid" = some (Json.str u) →
      WTstr fs "name" → WTstr fs "path" → WTstr fs "template" →
      WTstr fs "version" → WTbool fs "master" → WTstr fs "post_cmd" →
      ∃ m : SapiManifests, SapiManifests.fromJson (Json.obj fs) = .ok m ∧
        m.uuid = u ∧
        (findField fs "name" = none → m.name = "") ∧
        (findField fs "path" = none → m.path = "") ∧
        (findField fs "template" = none → m.template = "") ∧
        (findField fs "version" = none → m.version = "") ∧
        (findField fs "master" = none → m.master = false) ∧
        (findField fs "post_cmd" = none → m.post_cmd = "")) ∧
    (∀ (fs : List (String × Json)),
      findField fs "uuid" = none →
      ∃ e, SapiManifests.fromJson (Json.obj fs) = .error e) := by
  constructor
  · intro fs u hnd hu wn wp wt wv wm wpc
    have h := sapiManifests_fromFields_ok fs none none none none none none none
      u hnd
      (fun hh => Bool.noConfusion hh) (fun hh => Bool.noConfusion hh)
      (fun hh => Bool.noConfusion hh) (fun hh => Bool.noConfusion hh)
      (fun hh => Bool.noConfusion hh) (fun hh => Bool.noConfusion hh)
      (fun hh => Bool.noConfusion hh)
      wn wp wt wv wm wpc
      (by simp [resolveReqStr, hu])
    refine ⟨_, h, rfl, ?_, ?_, ?_, ?_, ?_, ?_⟩
    · intro hne
      simp [resolveStr, hne]
    · intro hne
      simp [resolveStr, hne]
    · intro hne
      simp [resolveStr, hne]
    · intro hne
      simp [resolveStr, hne]
    · intro hne
      simp [resolveBool, hne]
    · intro hne
      simp [resolveStr, hne]
  · intro fs h
    exact SapiManifests.fromFields_missing_uuid fs none none none none none none h

/-- C3 witness: the amended theorem applied at a one-field payload and at
the empty payload. -/
theorem sapi_C3_witness :
    (∃ m : SapiManifests,
      SapiManifests.fromJson (Json.obj [("uuid", Json.str "w1")]) = .ok m ∧
      m.uuid = "w1" ∧
      (findField [("uuid", Json.str "w1")] "name" = none → m.name = "") ∧
      (findField [("uuid", Json.str "w1")] "path" = none → m.path = "") ∧
      (findField [("uuid", Json.str "w1")] "template" = none → m.template = "") ∧
      (findField [("uuid", Json.str "w1")] "version" = none → m.version = "") ∧
      (findField [("uuid", Json.str "w1")] "master" = none → m.master = false) ∧
      (findField [("uuid", Json.str "w1")] "post_cmd" = none → m.post_cmd = "")) ∧
    (∃ e, SapiManifests.fromJson (Json.obj []) = .error e) :=
  ⟨sapi_C3.1 [("uuid", Json.str "w1")] "w1" (by decide) rfl
      (WTstr_of_none _ _ rfl) (WTstr_of_none _ _ rfl) (WTstr_of_none _ _ rfl)
      (WTstr_of_none _ _ rfl) (WTbool_of_none _ _ rfl) (WTstr_of_none _ _ rfl),
   sapi_C3.2 [] rfl⟩

/-- C4: for every known record type, unknown fields in an object payload
are silently ignored — decoding any payload gives the same result as
decoding the payload with its unknown fields removed — and a payload
whose known fields are in order decodes despite extra fields. -/
theorem sapi_C4 :
    (∀ fs : List (String × Json),
      SapiManifests.fromJson (Json.obj fs)
        = SapiManifests.fromJson (Json.obj (keepKnown sapiManifestsKeys fs))) ∧
    (∀ fs : List (String × Json),
      ServiceData.fromJson (Json.obj fs)
        = ServiceData.fromJson (Json.obj (keepKnown serviceDataKeys fs))) ∧
    (∀ fs : List (String × Json),
      InstanceData.fromJson (Json.obj fs)
        = InstanceData.fromJson (Json.obj (keepKnown instanceDataKeys fs))) ∧
    (∀ fs : List (String × Json),
      ApplicationData.fromJson (Json.obj fs)
        = ApplicationData.fromJson (Json.obj (keepKnown applicationDataKeys fs))) ∧
    (∀ fs : List (String × Json),
      ZoneConfig.fromJson (Json.obj fs)
        = ZoneConfig.fromJson (Json.obj (keepKnown zoneConfigKeys fs))) ∧
    SapiManifests.fromJson
        (Json.obj [("uuid", Json.str "u1"), ("unknown_extra", Json.num 7)])
      = .ok ⟨"u1", "", "", "", "", false, ""⟩ :=
  ⟨fun fs => (sapiManifests_fromFields_keepKnown fs
      none none none none none none none).symm,
   fun fs => (serviceData_fromFields_keepKnown fs
      none none none none none none).symm,
   fun fs => (instanceData_fromFields_keepKnown fs none none none none).symm,
   fun fs => (applicationData_fromFields_keepKnown fs
      none none none none none none).symm,
   fun fs => (zoneConfig_fromFields_keepKnown fs none none).symm,
   rfl⟩

/-- C5: the literal ZoneConfig payload from the spec scenario decodes to
one manifest with uuid m1 and all other manifest fields at their defaults,
and its metadata field maps SERVICE_NAME to svc.example.com. -/
theorem sapi_C5 :
    ZoneConfig.fromJson (Json.obj
        [("manifests", Json.arr [Json.obj [("uuid", Json.str "m1")]]),
         ("metadata", Json.obj [("SERVICE_NAME", Json.str "svc.example.com")])])
      = .ok ⟨[⟨"m1", "", "", "", "", false, ""⟩],
             Json.obj [("SERVICE_NAME", Json.str "svc.example.com")]⟩ ∧
    findField [("SERVICE_NAME", Json.str "svc.example.com")] "SERVICE_NAME"
      = some (Json.str "svc.example.com") :=
  ⟨rfl, rfl⟩

/-- C8: serialization followed by deserialization is the identity on
SapiManifests and ZoneConfig records — every field, defaults included, is
emitted on serialization and read back. -/
theorem sapi_C8 :
    (∀ m : SapiManifests,
      SapiManifests.fromJson (SapiManifests.toJson m) = .ok m) ∧
    (∀ z : ZoneConfig, ZoneConfig.fromJson (ZoneConfig.toJson z) = .ok z) :=
  ⟨sapiManifests_fromJson_toJson, zoneConfig_fromJson_toJson⟩

/-- C10: ZoneConfig has no defaultable field — an object payload lacking
its manifests or its metadata member fails to decode, so get_zone_config
returns a decode error on such a body. -/
theorem sapi_C10 :
    ∀ fs : List (String × Json),
    findField fs "manifests" = none ∨ findField fs "metadata" = none →
    (∃ e, ZoneConfig.fromJson (Json.obj fs) = .error e) ∧
    ∀ (c : SAPI) (uuid : String) (status : Nat),
      ∃ e, (SAPI.get_zone_config c uuid
        (fun _ => .ok ⟨status, Json.obj fs⟩)).1 = .error (.decode e) := by
  intro fs h
  have hz : ∃ e, ZoneConfig.fromJson (Json.obj fs) = .error e := by
    rcases h with h1 | h1
    · exact ZoneConfig.fromFields_missing fs none none (Or.inl ⟨rfl, h1⟩)
    · exact ZoneConfig.fromFields_missing fs none none (Or.inr ⟨rfl, h1⟩)
  refine ⟨hz, ?_⟩
  intro c uuid status
  obtain ⟨e, he⟩ := hz
  exact ⟨e, by simp [SAPI.get_zone_config, SAPI.get, respJson, he]⟩

/-- C10 witness: the theorem applied at the empty object payload. -/
theorem sapi_C10_witness :
    (∃ e, ZoneConfig.fromJson (Json.obj []) = .error e) ∧
    ∀ (c : SAPI) (uuid : String) (status : Nat),
      ∃ e, (SAPI.get_zone_config c uuid
        (fun _ => .ok ⟨status, Json.obj []⟩)).1 = .error (.decode e) :=
  sapi_C10 [] (Or.inl rfl)

/-- C2: every read operation issues exactly one GET request; a transport
failure is returned immediately as a transport error; on a successful
round trip the body is decoded with no inspection of the HTTP status, so
any response whose body does not decode — whatever its status code —
yields a decode error, never a not-found or server-error kind. -/
theorem sapi_C2 :
    (∀ (c : SAPI) (uuid : String) (status : Nat) (body : Json) (e : String),
      ZoneConfig.fromJson body = .error e →
      (SAPI.get_zone_config c uuid (fun _ => .ok ⟨status, body⟩)).1
        = .error (.decode e)) ∧
    (∀ (c : SAPI) (uuid : String) (t : Transport),
      (SAPI.get_zone_config c uuid t).2
        = [⟨.GET, c.sapi_base_url ++ "/configs/" ++ uuid, none⟩]) ∧
    (∀ (c : SAPI) (uuid : String) (e : String),
      (SAPI.get_zone_config c uuid (fun _ => .error e)).1
        = .error (.transport e)) ∧
    (∀ (c : SAPI) (inst_uuid : String) (status : Nat) (body : Json) (e : String),
      InstanceData.fromJson body = .error e →
      (SAPI.get_instance c inst_uuid (fun _ => .ok ⟨status, body⟩)).1
        = .error (.decode e)) ∧
    (∀ (c : SAPI) (inst_uuid : String) (t : Transport),
      (SAPI.get_instance c inst_uuid t).2
        = [⟨.GET, c.sapi_base_url ++ "/instances/" ++ inst_uuid, none⟩]) ∧
    (∀ (c : SAPI) (inst_uuid : String) (e : String),
      (SAPI.get_instance c inst_uuid (fun _ => .error e)).1
        = .error (.transport e)) ∧
    (∀ (c : SAPI) (status : Nat) (body : Json) (e : String),
      decInstances body = .error e →
      (SAPI.list_instances c (fun _ => .ok ⟨status, body⟩)).1
        = .error (.decode e)) ∧
    (∀ (c : SAPI) (t : Transport),
      (SAPI.list_instances c t).2
        = [⟨.GET, c.sapi_base_url ++ "/instances", none⟩]) ∧
    (∀ (c : SAPI) (e : String),
      (SAPI.list_instances c (fun _ => .error e)).1
        = .error (.transport e)) ∧
    (∀ (c : SAPI) (svc_uuid : String) (status : Nat) (body : Json) (e : String),
      decInstances body = .error e →
      (SAPI.list_service_instances c svc_uuid (fun _ => .ok ⟨status, body⟩)).1
        = .error (.decode e)) ∧
    (∀ (c : SAPI) (svc_uuid : String) (t : Transport),
      (SAPI.list_service_instances c svc_uuid t).2
        = [⟨.GET, c.sapi_base_url ++ "/instances?service_uuid=" ++ svc_uuid,
            none⟩]) ∧
    (∀ (c : SAPI) (svc_uuid : String) (e : String),
      (SAPI.list_service_instances c svc_uuid (fun _ => .error e)).1
        = .error (.transport e)) ∧
    (∀ (c : SAPI) (status : Nat) (body : Json) (e : String),
      decServices body = .error e →
      (SAPI.list_services c (fun _ => .ok ⟨status, body⟩)).1
        = .error (.decode e)) ∧
    (∀ (c : SAPI) (t : Transport),
      (SAPI.list_services c t).2
        = [⟨.GET, c.sapi_base_url ++ "/services", none⟩]) ∧
    (∀ (c : SAPI) (e : String),
      (SAPI.list_services c (fun _ => .error e)).1
        = .error (.transport e)) ∧
    (∀ (c : SAPI) (uuid : String) (status : Nat) (body : Json) (e : String),
      ServiceData.fromJson body = .error e →
      (SAPI.get_service c uuid (fun _ => .ok ⟨status, body⟩)).1
        = .error (.decode e)) ∧
    (∀ (c : SAPI) (uuid : String) (t : Transport),
      (SAPI.get_service c uuid t).2
        = [⟨.GET, c.sapi_base_url ++ "/services/" ++ uuid, none⟩]) ∧
    (∀ (c : SAPI) (uuid : String) (e : String),
      (SAPI.get_service c uuid (fun _ => .error e)).1
        = .error (.transport e)) ∧
    (∀ (c : SAPI) (name : String) (status : Nat) (body : Json) (e : String),
      decServices body = .error e →
      (SAPI.get_service_by_name c name (fun _ => .ok ⟨status, body⟩)).1
        = .error (.decode e)) ∧
    (∀ (c : SAPI) (name : String) (t : Transport),
      (SAPI.get_service_by_name c name t).2
        = [⟨.GET, c.sapi_base_url ++ "/services?name=" ++ name, none⟩]) ∧
    (∀ (c : SAPI) (name : String) (e : String),
      (SAPI.get_service_by_name c name (fun _ => .error e)).1
        = .error (.transport e)) ∧
    (∀ (c : SAPI) (name : String) (status : Nat) (body : Json) (e : String),
      decApplications body = .error e →
      (SAPI.get_application_by_name c name (fun _ => .ok ⟨status, body⟩)).1
        = .error (.decode e)) ∧
    (∀ (c : SAPI) (name : String) (t : Transport),
      (SAPI.get_application_by_name c name t).2
        = [⟨.GET, c.sapi_base_url ++ "/applications?name=" ++ name, none⟩]) ∧
    (∀ (c : SAPI) (name : String) (e : String),
      (SAPI.get_application_by_name c name (fun _ => .error e)).1
        = .error (.transport e)) ∧
    (∀ (c : SAPI) (status : Nat) (body : Json) (e : String),
      decApplications body = .error e →
      (SAPI.list_applications c (fun _ => .ok ⟨status, body⟩)).1
        = .error (.decode e)) ∧
    (∀ (c : SAPI) (t : Transport),
      (SAPI.list_applications c t).2
        = [⟨.GET, c.sapi_base_url ++ "/applications", none⟩]) ∧
    (∀ (c : SAPI) (e : String),
      (SAPI.list_applications c (fun _ => .error e)).1
        = .error (.transport e)) ∧
    (∀ (c : SAPI) (uuid : String) (status : Nat) (body : Json) (e : String),
      ApplicationData.fromJson body = .error e →
      (SAPI.get_application c uuid (fun _ => .ok ⟨status, body⟩)).1
        = .error (.decode e)) ∧
    (∀ (c : SAPI) (uuid : String) (t : Transport),
      (SAPI.get_application c uuid t).2
        = [⟨.GET, c.sapi_base_url ++ "/applications/" ++ uuid, none⟩]) ∧
    (∀ (c : SAPI) (uuid : String) (e : String),
      (SAPI.get_application c uuid (fun _ => .error e)).1
        = .error (.transport e)) :=
  ⟨fun c x st b e h => by simp [SAPI.get_zone_config, SAPI.get, respJson, h],
   fun c x t => rfl,
   fun c x e => rfl,
   fun c x st b e h => by simp [SAPI.get_instance, SAPI.get, respJson, h],
   fun c x t => rfl,
   fun c x e => rfl,
   fun c st b e h => by simp [SAPI.list_instances, SAPI.get, respJson, h],
   fun c t => rfl,
   fun c e => rfl,
   fun c x st b e h => by
     simp [SAPI.list_service_instances, SAPI.get, respJson, h],
   fun c x t => rfl,
   fun c x e => rfl,
   fun c st b e h => by simp [SAPI.list_services, SAPI.get, respJson, h],
   fun c t => rfl,
   fun c e => rfl,
   fun c x st b e h => by simp [SAPI.get_service, SAPI.get, respJson, h],
   fun c x t => rfl,
   fun c x e => rfl,
   fun c x st b e h => by
     simp [SAPI.get_service_by_name, SAPI.get, respJson, h],
   fun c x t => rfl,
   fun c x e => rfl,
   fun c x st b e h => by
     simp [SAPI.get_application_by_name, SAPI.get, respJson, h],
   fun c x t => rfl,
   fun c x e => rfl,
   fun c st b e h => by simp [SAPI.list_applications, SAPI.get, respJson, h],
   fun c t => rfl,
   fun c e => rfl,
   fun c x st b e h => by simp [SAPI.get_application, SAPI.get, respJson, h],
   fun c x t => rfl,
   fun c x e => rfl⟩

/-- C2 witness: each read operation, fed a 404 response whose body is the
JSON null (which matches no record shape), reports a decode error. -/
theorem sapi_C2_witness :
    (SAPI.get_zone_config ⟨"http://sapi"⟩ "z1"
        (fun _ => .ok ⟨404, Json.null⟩)).1
      = .error (.decode "invalid type: expected struct ZoneConfig") ∧
    (SAPI.get_instance ⟨"http://sapi"⟩ "i1"
        (fun _ => .ok ⟨404, Json.null⟩)).1
      = .error (.decode "invalid type: expected struct InstanceData") ∧
    (SAPI.list_instances ⟨"http://sapi"⟩
        (fun _ => .ok ⟨500, Json.null⟩)).1
      = .error (.decode "invalid type: expected a sequence") ∧
    (SAPI.list_service_instances ⟨"http://sapi"⟩ "s1"
        (fun _ => .ok ⟨500, Json.null⟩)).1
      = .error (.decode "invalid type: expected a sequence") ∧
    (SAPI.list_services ⟨"http://sapi"⟩
        (fun _ => .ok ⟨500, Json.null⟩)).1
      = .error (.decode "invalid type: expected a sequence") ∧
    (SAPI.get_service ⟨"http://sapi"⟩ "s1"
        (fun _ => .ok ⟨404, Json.null⟩)).1
      = .error (.decode "invalid type: expected struct ServiceData") ∧
    (SAPI.get_service_by_name ⟨"http://sapi"⟩ "n1"
        (fun _ => .ok ⟨500, Json.null⟩)).1
      = .error (.decode "invalid type: expected a sequence") ∧
    (SAPI.get_application_by_name ⟨"http://sapi"⟩ "n1"
        (fun _ => .ok ⟨500, Json.null⟩)).1
      = .error (.decode "invalid type: expected a sequence") ∧
    (SAPI.list_applications ⟨"http://sapi"⟩
        (fun _ => .ok ⟨500, Json.null⟩)).1
      = .error (.decode "invalid type: expected a sequence") ∧
    (SAPI.get_application ⟨"http://sapi"⟩ "a1"
        (fun _ => .ok ⟨404, Json.null⟩)).1
      = .error (.decode "invalid type: expected struct ApplicationData") := by
  obtain ⟨h1, _, _, h2, _, _, h3, _, _, h4, _, _, h5, _, _, h6, _, _,
    h7, _, _, h8, _, _, h9, _, _, h10, _, _⟩ := sapi_C2
  exact ⟨h1 _ _ 404 Json.null _ rfl, h2 _ _ 404 Json.null _ rfl,
    h3 _ 500 Json.null _ rfl, h4 _ _ 500 Json.null _ rfl,
    h5 _ 500 Json.null _ rfl, h6 _ _ 404 Json.null _ rfl,
    h7 _ _ 500 Json.null _ rfl, h8 _ _ 500 Json.null _ rfl,
    h9 _ 500 Json.null _ rfl, h10 _ _ 404 Json.null _ rfl⟩

/-- C6: create_service issues exactly one POST to base ++ /services whose
JSON body is exactly the two-member object with name and application_uuid,
and returns the raw transport response undecoded. -/
theorem sapi_C6 :
    ∀ (c : SAPI) (name application_uuid : String) (t : Transport),
    SAPI.create_service c name application_uuid t =
      (t ⟨.POST, c.sapi_base_url ++ "/services",
          some (Json.obj [("name", Json.str name),
                          ("application_uuid", Json.str application_uuid)])⟩,
       [⟨.POST, c.sapi_base_url ++ "/services",
          some (Json.obj [("name", Json.str name),
                          ("application_uuid", Json.str application_uuid)])⟩]) := by
  intro c name application_uuid t
  rfl

/-- C7: every operation builds its request URL by direct string
concatenation of the base URL and the fixed resource path (plus the query
argument where applicable), with no trailing-slash normalization, and
issues exactly that one request. -/
theorem sapi_C7 :
    ∀ (c : SAPI) (uuid name svc_uuid : String) (body : Json) (t : Transport),
    (SAPI.get_zone_config c uuid t).2
      = [⟨.GET, c.sapi_base_url ++ "/configs/" ++ uuid, none⟩] ∧
    (SAPI.get_instance c uuid t).2
      = [⟨.GET, c.sapi_base_url ++ "/instances/" ++ uuid, none⟩] ∧
    (SAPI.list_instances c t).2
      = [⟨.GET, c.sapi_base_url ++ "/instances", none⟩] ∧
    (SAPI.list_service_instances c svc_uuid t).2
      = [⟨.GET, c.sapi_base_url ++ "/instances?service_uuid=" ++ svc_uuid,
          none⟩] ∧
    (SAPI.list_services c t).2
      = [⟨.GET, c.sapi_base_url ++ "/services", none⟩] ∧
    (SAPI.get_service c uuid t).2
      = [⟨.GET, c.sapi_base_url ++ "/services/" ++ uuid, none⟩] ∧
    (SAPI.get_service_by_name c name t).2
      = [⟨.GET, c.sapi_base_url ++ "/services?name=" ++ name, none⟩] ∧
    (SAPI.create_service c name uuid t).2
      = [⟨.POST, c.sapi_base_url ++ "/services",
          some (Json.obj [("name", Json.str name),
                          ("application_uuid", Json.str uuid)])⟩] ∧
    (SAPI.update_service c svc_uuid body t).2
      = [⟨.POST, c.sapi_base_url ++ "/services/" ++ svc_uuid, some body⟩] ∧
    (SAPI.delete_service c svc_uuid t).2
      = [⟨.DELETE, c.sapi_base_url ++ "/services/" ++ svc_uuid, none⟩] ∧
    (SAPI.get_application_by_name c name t).2
      = [⟨.GET, c.sapi_base_url ++ "/applications?name=" ++ name, none⟩] ∧
    (SAPI.list_applications c t).2
      = [⟨.GET, c.sapi_base_url ++ "/applications", none⟩] ∧
    (SAPI.get_application c uuid t).2
      = [⟨.GET, c.sapi_base_url ++ "/applications/" ++ uuid, none⟩] := by
  intro c uuid name svc_uuid body t
  exact ⟨rfl, rfl, rfl, rfl, rfl, rfl, rfl, rfl, rfl, rfl, rfl, rfl, rfl⟩

/-- C9: query and path arguments are embedded verbatim — unencoded — into
the request URL string; in particular reserved characters in a name
survive as-is. -/
theorem sapi_C9 :
    (∀ (c : SAPI) (name : String) (t : Transport),
      (SAPI.get_service_by_name c name t).2
        = [⟨.GET, c.sapi_base_url ++ "/services?name=" ++ name, none⟩]) ∧
    (∀ (c : SAPI) (name : String) (t : Transport),
      (SAPI.get_application_by_name c name t).2
        = [⟨.GET, c.sapi_base_url ++ "/applications?name=" ++ name, none⟩]) ∧
    (∀ (c : SAPI) (uuid : String) (t : Transport),
      (SAPI.get_service c uuid t).2
        = [⟨.GET, c.sapi_base_url ++ "/services/" ++ uuid, none⟩]) ∧
    (∀ t : Transport,
      (SAPI.get_service_by_name ⟨"http://sapi"⟩ "a&b?c d#e" t).2
        = [⟨.GET, "http://sapi/services?name=a&b?c d#e", none⟩]) :=
  ⟨fun _ _ _ => rfl, fun _ _ _ => rfl, fun _ _ _ => rfl, fun _ => rfl⟩
